import Mathlib

/-!
Shallow embedding of the riotplan-format storage core: the SQLite storage
provider (src/storage/sqlite-provider.ts), format-detection heuristics
(src/storage/utils.ts), the plan migrator (src/migration/migrator.ts) and the
migration validator (src/migration/validator.ts).

The single-file SQLite store is modelled as an in-memory record of table
contents.  The provider scopes every query to the one cached plan id
(`getPlanId` returns the first row of `plans` and the id never changes during
a provider's lifetime), so entity tables are modelled without the constant
`plan_id` column; the `plans` table itself is kept as a list so that the
multi-row behaviour of `initialize` stays visible.  Timestamps are ISO-8601
strings compared with SQLite's binary text collation, i.e. ordinary string
order.  `randomUUID` is modelled by a counter threaded through the store.
-/

namespace RiotPlan

/-- JS truthiness on an optional string, as used by the provider's
`x || null` on writes and `x || undefined` on reads: an absent value stays
absent and the empty string is coerced to absent. -/
def jsOrNone : Option String → Option String
  | none => none
  | some s => if s = "" then none else some s

/-- The `StorageResult<T>` envelope: `{ success, data?, error? }`. -/
structure SResult (α : Type) where
  success : Bool
  data : Option α
  error : Option String
deriving DecidableEq, Repr

/-- A successful result carrying data. -/
def SResult.okSome {α : Type} (a : α) : SResult α :=
  { success := true, data := some a, error := none }

/-- A successful result with a null payload (valid empty answer). -/
def SResult.okNone {α : Type} : SResult α :=
  { success := true, data := none, error := none }

/-- A failed result carrying an error message. -/
def SResult.fail {α : Type} (msg : String) : SResult α :=
  { success := false, data := none, error := some msg }

/-- `PlanMetadata` as it travels through the provider interface. -/
structure PlanMetadata where
  id : String
  name : String
  description : Option String
  createdAt : String
  updatedAt : String
  stage : String
  schemaVersion : Nat
deriving DecidableEq, Repr

/-- A row of the `plans` table. -/
structure PlanRow where
  code : String
  name : String
  description : Option String
  stage : String
  createdAt : String
  updatedAt : String
  schemaVersion : Nat
deriving DecidableEq, Repr

/-- A `PlanStep`; also used for rows of `plan_steps` (same columns). -/
structure PlanStep where
  number : Nat
  code : String
  title : String
  description : Option String
  status : String
  startedAt : Option String
  completedAt : Option String
  content : String
deriving DecidableEq, Repr

/-- A `PlanFile`; also a row of `plan_files` (`ftype` is the `file_type`
column). -/
structure PlanFile where
  ftype : String
  filename : String
  content : String
  createdAt : String
  updatedAt : String
deriving DecidableEq, Repr

/-- A `TimelineEvent`; also a row of `timeline_events`.  The JSON `data`
payload is opaque at the storage boundary and carried as its serialized
form (`etype` is the `event_type` column). -/
structure TimelineEvent where
  id : String
  timestamp : String
  etype : String
  data : String
deriving DecidableEq, Repr

/-- An `EvidenceRecord`; also a row of `evidence_records`. -/
structure EvidenceRecord where
  id : String
  description : String
  source : Option String
  sourceUrl : Option String
  gatheringMethod : Option String
  content : Option String
  filePath : Option String
  relevanceScore : Option ℚ
  originalQuery : Option String
  summary : Option String
  createdAt : String
deriving DecidableEq, Repr

/-- A `FeedbackRecord`; also a row of `feedback_records`.  `participants`
round-trips through JSON serialization, which is the identity on string
lists. -/
structure FeedbackRecord where
  id : String
  title : Option String
  platform : Option String
  content : String
  participants : Option (List String)
  createdAt : String
deriving DecidableEq, Repr

/-- Step statuses captured in a checkpoint snapshot. -/
structure SnapshotStep where
  number : Nat
  status : String
  startedAt : Option String
  completedAt : Option String
deriving DecidableEq, Repr

/-- Files captured in a checkpoint snapshot. -/
structure SnapshotFile where
  ftype : String
  filename : String
  content : String
deriving DecidableEq, Repr

/-- A `CheckpointSnapshot`. -/
structure CheckpointSnapshot where
  metadata : PlanMetadata
  steps : List SnapshotStep
  files : List SnapshotFile
deriving DecidableEq, Repr

/-- A `Checkpoint`; also a row of `checkpoints` (the snapshot JSON blob
round-trips unchanged). -/
structure Checkpoint where
  name : String
  message : String
  createdAt : String
  snapshot : CheckpointSnapshot
deriving DecidableEq, Repr

/-- The state of one single-file SQLite plan store. -/
structure DB where
  plans : List PlanRow
  steps : List PlanStep
  files : List PlanFile
  events : List TimelineEvent
  evidence : List EvidenceRecord
  feedback : List FeedbackRecord
  checkpoints : List Checkpoint
  uuidSeed : Nat
deriving DecidableEq, Repr

/-- A freshly created, never-initialized store file. -/
def DB.empty : DB :=
  { plans := [], steps := [], files := [], events := [], evidence := [],
    feedback := [], checkpoints := [], uuidSeed := 0 }

/-- Model of `randomUUID()`: fresh identifiers drawn from the seed. -/
def genUuid (n : Nat) : String := "uuid-" ++ toString n

/-! ### Stable sorting, modelling SQL `ORDER BY` and JS `Array.prototype.sort` -/

/-- Insert `x` in front of the first element it does not have to follow:
`le x y = true` keeps `x` before `y`, so ties preserve the original order. -/
def insertSorted {α : Type} (le : α → α → Bool) (x : α) : List α → List α
  | [] => [x]
  | y :: ys => if le x y then x :: y :: ys else y :: insertSorted le x ys

/-- Stable insertion sort. -/
def sortBy {α : Type} (le : α → α → Bool) : List α → List α
  | [] => []
  | x :: xs => insertSorted le x (sortBy le xs)

/-! ### Row/interface conversions (JS truthiness at the storage boundary) -/

/-- `addStep` stores `description || null`, `startedAt || null`,
`completedAt || null`; `getSteps`/`getStep` read them back with
`|| undefined`.  Both coercions are `jsOrNone`. -/
def stepRowConv (s : PlanStep) : PlanStep :=
  { s with description := jsOrNone s.description,
           startedAt := jsOrNone s.startedAt,
           completedAt := jsOrNone s.completedAt }

/-- `addEvidence` write coercions (`|| null` on the optional strings,
`?? null` on the relevance score). -/
def evidenceWriteRow (e : EvidenceRecord) : EvidenceRecord :=
  { e with source := jsOrNone e.source,
           sourceUrl := jsOrNone e.sourceUrl,
           gatheringMethod := jsOrNone e.gatheringMethod,
           content := jsOrNone e.content,
           filePath := jsOrNone e.filePath,
           originalQuery := jsOrNone e.originalQuery,
           summary := jsOrNone e.summary }

/-- `getEvidence` read coercions (`|| undefined` everywhere except the plain
cast on `gathering_method` and `?? undefined` on the score). -/
def evidenceReadRow (e : EvidenceRecord) : EvidenceRecord :=
  { e with source := jsOrNone e.source,
           sourceUrl := jsOrNone e.sourceUrl,
           content := jsOrNone e.content,
           filePath := jsOrNone e.filePath,
           originalQuery := jsOrNone e.originalQuery,
           summary := jsOrNone e.summary }

/-- `addFeedback` write coercions (`participants` is serialized when the
array is present; arrays are always truthy). -/
def feedbackWriteRow (f : FeedbackRecord) : FeedbackRecord :=
  { f with title := jsOrNone f.title, platform := jsOrNone f.platform }

/-- `getFeedback` read coercions. -/
def feedbackReadRow (f : FeedbackRecord) : FeedbackRecord :=
  { f with title := jsOrNone f.title, platform := jsOrNone f.platform }

/-! ### SqliteStorageProvider operations

Reads are functions `DB → SResult _`; writes return the new store state with
the result.  An operation that needs the plan id fails with the caught
`getPlanId` exception message when no plan row exists. -/

/-- Error message of `getPlanId`'s throw, surfaced through each catch. -/
def noPlanMsg : String := "No plan found in database"

/-- `exists()`: `COUNT(*) FROM plans > 0`, any failure swallowed as false. -/
def DB.existsPlan (db : DB) : Bool := !db.plans.isEmpty

/-- `initialize(metadata)`: run the (idempotent) schema, then insert the one
plan row; the insert hits `UNIQUE(code)` when a plan with the same code is
already present. -/
def DB.initializeStore (db : DB) (m : PlanMetadata) : DB × SResult Unit :=
  if db.plans.any (fun p => p.code == m.id) then
    (db, .fail "UNIQUE constraint failed: plans.code")
  else
    ({ db with plans := db.plans ++
        [{ code := m.id, name := m.name, description := jsOrNone m.description,
           stage := m.stage, createdAt := m.createdAt, updatedAt := m.updatedAt,
           schemaVersion := m.schemaVersion }] },
     { success := true, data := none, error := none })

/-- `getMetadata()`: the row selected by the cached plan id is the first
`plans` row. -/
def DB.getMetadata (db : DB) : SResult PlanMetadata :=
  match db.plans.head? with
  | none => .fail noPlanMsg
  | some p =>
      .okSome { id := p.code, name := p.name, description := jsOrNone p.description,
                createdAt := p.createdAt, updatedAt := p.updatedAt,
                stage := p.stage, schemaVersion := p.schemaVersion }

/-- A partial metadata patch (`Partial<PlanMetadata>` restricted to the
fields `updateMetadata` looks at). -/
structure MetadataPatch where
  name : Option String := none
  description : Option String := none
  stage : Option String := none
deriving DecidableEq, Repr

/-- The `SET` clauses `updateMetadata` builds: one per supplied field, plus
the unconditional `updated_at = now`. -/
def metadataSetters (u : MetadataPatch) (now : String) : List (PlanRow → PlanRow) :=
  (match u.name with
   | some v => [fun p => { p with name := v }]
   | none => []) ++
  (match u.description with
   | some v => [fun p => { p with description := some v }]
   | none => []) ++
  (match u.stage with
   | some v => [fun p => { p with stage := v }]
   | none => []) ++
  [fun p => { p with updatedAt := now }]

/-- `updateMetadata(patch)`; `now` is `new Date().toISOString()`. -/
def DB.updateMetadata (db : DB) (u : MetadataPatch) (now : String) :
    DB × SResult Unit :=
  match db.plans with
  | [] => (db, .fail noPlanMsg)
  | p :: rest =>
      ({ db with plans := (metadataSetters u now).foldl (fun q f => f q) p :: rest },
       { success := true, data := none, error := none })

/-- `getSteps()`: `ORDER BY number`, then the row-to-interface mapping. -/
def DB.getSteps (db : DB) : SResult (List PlanStep) :=
  if db.plans.isEmpty then .fail noPlanMsg
  else
    .okSome ((sortBy (fun a b => a.number ≤ b.number) db.steps).map stepRowConv)

/-- `getStep(number)`: point lookup; not-found is success with null data. -/
def DB.getStep (db : DB) (n : Nat) : SResult PlanStep :=
  if db.plans.isEmpty then .fail noPlanMsg
  else
    match db.steps.find? (fun r => r.number == n) with
    | none => .okNone
    | some r => .okSome (stepRowConv r)

/-- `addStep(step)`: plain insert, guarded by `UNIQUE(plan_id, number)`. -/
def DB.addStep (db : DB) (s : PlanStep) : DB × SResult Unit :=
  if db.plans.isEmpty then (db, .fail noPlanMsg)
  else if db.steps.any (fun r => r.number == s.number) then
    (db, .fail "UNIQUE constraint failed: plan_steps.plan_id, plan_steps.number")
  else
    ({ db with steps := db.steps ++ [stepRowConv s] },
     { success := true, data := none, error := none })

/-- A partial step patch (`Partial<PlanStep>` restricted to the fields
`updateStep` looks at). -/
structure StepPatch where
  code : Option String := none
  title : Option String := none
  description : Option String := none
  status : Option String := none
  startedAt : Option String := none
  completedAt : Option String := none
  content : Option String := none
deriving DecidableEq, Repr

/-- The `SET` clauses `updateStep` builds, one per supplied field. -/
def stepSetters (u : StepPatch) : List (PlanStep → PlanStep) :=
  (match u.code with
   | some v => [fun r => { r with code := v }]
   | none => []) ++
  (match u.title with
   | some v => [fun r => { r with title := v }]
   | none => []) ++
  (match u.description with
   | some v => [fun r => { r with description := some v }]
   | none => []) ++
  (match u.status with
   | some v => [fun r => { r with status := v }]
   | none => []) ++
  (match u.startedAt with
   | some v => [fun r => { r with startedAt := some v }]
   | none => []) ++
  (match u.completedAt with
   | some v => [fun r => { r with completedAt := some v }]
   | none => []) ++
  (match u.content with
   | some v => [fun r => { r with content := v }]
   | none => [])

/-- `updateStep(number, updates)`: early successful return when no field is
supplied, otherwise one `UPDATE ... WHERE number = ?`. -/
def DB.updateStep (db : DB) (n : Nat) (u : StepPatch) : DB × SResult Unit :=
  let fs := stepSetters u
  if fs.isEmpty then (db, { success := true, data := none, error := none })
  else if db.plans.isEmpty then (db, .fail noPlanMsg)
  else
    ({ db with steps := db.steps.map (fun r =>
        if r.number == n then fs.foldl (fun q f => f q) r else r) },
     { success := true, data := none, error := none })

/-- `getFiles()`: no `ORDER BY`; rows in insertion order. -/
def DB.getFiles (db : DB) : SResult (List PlanFile) :=
  if db.plans.isEmpty then .fail noPlanMsg else .okSome db.files

/-- `getFile(type, filename)`: point lookup with null-on-not-found. -/
def DB.getFile (db : DB) (t fn : String) : SResult PlanFile :=
  if db.plans.isEmpty then .fail noPlanMsg
  else
    match db.files.find? (fun r => r.ftype == t && r.filename == fn) with
    | none => .okNone
    | some r => .okSome r

/-- The `INSERT ... ON CONFLICT(plan_id, file_type, filename) DO UPDATE SET
content = excluded.content, updated_at = excluded.updated_at` row logic,
shared by `saveFile` and the checkpoint-restore file writes. -/
def fileUpsert (files : List PlanFile) (f : PlanFile) : List PlanFile :=
  if files.any (fun r => r.ftype == f.ftype && r.filename == f.filename) then
    files.map (fun r =>
      if r.ftype == f.ftype && r.filename == f.filename then
        { r with content := f.content, updatedAt := f.updatedAt }
      else r)
  else files ++ [f]

/-- `saveFile(file)`: the upsert keyed by `(type, filename)`. -/
def DB.saveFile (db : DB) (f : PlanFile) : DB × SResult Unit :=
  if db.plans.isEmpty then (db, .fail noPlanMsg)
  else
    ({ db with files := fileUpsert db.files f },
     { success := true, data := none, error := none })

/-- `getTimelineEvents()` with no options: `ORDER BY timestamp DESC`. -/
def DB.getTimelineEvents (db : DB) : SResult (List TimelineEvent) :=
  if db.plans.isEmpty then .fail noPlanMsg
  else .okSome (sortBy (fun a b => b.timestamp ≤ a.timestamp) db.events)

/-- `addTimelineEvent(event)`: inserts with `event.id || randomUUID()`;
the text primary key rejects duplicate ids. -/
def DB.addTimelineEvent (db : DB) (e : TimelineEvent) : DB × SResult Unit :=
  if db.plans.isEmpty then (db, .fail noPlanMsg)
  else
    let id := if e.id = "" then genUuid db.uuidSeed else e.id
    let seed := if e.id = "" then db.uuidSeed + 1 else db.uuidSeed
    if db.events.any (fun r => r.id == id) then
      ({ db with uuidSeed := seed }, .fail "UNIQUE constraint failed: timeline_events.id")
    else
      ({ db with events := db.events ++ [{ e with id := id }], uuidSeed := seed },
       { success := true, data := none, error := none })

/-- `getEvidence()`: no `ORDER BY`; read coercions applied per row. -/
def DB.getEvidence (db : DB) : SResult (List EvidenceRecord) :=
  if db.plans.isEmpty then .fail noPlanMsg
  else .okSome (db.evidence.map evidenceReadRow)

/-- `addEvidence(evidence)`: insert with `evidence.id || randomUUID()`. -/
def DB.addEvidence (db : DB) (e : EvidenceRecord) : DB × SResult Unit :=
  if db.plans.isEmpty then (db, .fail noPlanMsg)
  else
    let id := if e.id = "" then genUuid db.uuidSeed else e.id
    let seed := if e.id = "" then db.uuidSeed + 1 else db.uuidSeed
    if db.evidence.any (fun r => r.id == id) then
      ({ db with uuidSeed := seed }, .fail "UNIQUE constraint failed: evidence_records.id")
    else
      ({ db with evidence := db.evidence ++ [{ evidenceWriteRow e with id := id }],
                 uuidSeed := seed },
       { success := true, data := none, error := none })

/-- `getFeedback()`: no `ORDER BY`; read coercions applied per row. -/
def DB.getFeedback (db : DB) : SResult (List FeedbackRecord) :=
  if db.plans.isEmpty then .fail noPlanMsg
  else .okSome (db.feedback.map feedbackReadRow)

/-- `addFeedback(feedback)`: insert with `feedback.id || randomUUID()`. -/
def DB.addFeedback (db : DB) (f : FeedbackRecord) : DB × SResult Unit :=
  if db.plans.isEmpty then (db, .fail noPlanMsg)
  else
    let id := if f.id = "" then genUuid db.uuidSeed else f.id
    let seed := if f.id = "" then db.uuidSeed + 1 else db.uuidSeed
    if db.feedback.any (fun r => r.id == id) then
      ({ db with uuidSeed := seed }, .fail "UNIQUE constraint failed: feedback_records.id")
    else
      ({ db with feedback := db.feedback ++ [{ feedbackWriteRow f with id := id }],
                 uuidSeed := seed },
       { success := true, data := none, error := none })

/-- `getCheckpoints()`: `ORDER BY created_at DESC`. -/
def DB.getCheckpoints (db : DB) : SResult (List Checkpoint) :=
  if db.plans.isEmpty then .fail noPlanMsg
  else .okSome (sortBy (fun a b => b.createdAt ≤ a.createdAt) db.checkpoints)

/-- `getCheckpoint(name)`: point lookup with null-on-not-found. -/
def DB.getCheckpoint (db : DB) (name : String) : SResult Checkpoint :=
  if db.plans.isEmpty then .fail noPlanMsg
  else
    match db.checkpoints.find? (fun c => c.name == name) with
    | none => .okNone
    | some c => .okSome c

/-- `createCheckpoint(checkpoint)`: upsert keyed by `(plan_id, name)`. -/
def DB.createCheckpoint (db : DB) (c : Checkpoint) : DB × SResult Unit :=
  if db.plans.isEmpty then (db, .fail noPlanMsg)
  else if db.checkpoints.any (fun r => r.name == c.name) then
    ({ db with checkpoints := db.checkpoints.map (fun r =>
        if r.name == c.name then
          { r with message := c.message, createdAt := c.createdAt,
                   snapshot := c.snapshot }
        else r) },
     { success := true, data := none, error := none })
  else
    ({ db with checkpoints := db.checkpoints ++ [c] },
     { success := true, data := none, error := none })

/-! ### Checkpoint restore

`restoreCheckpoint` wraps three groups of statements in one
`db.transaction(...)`.  The elementary statements are reified so that the
transaction semantics of the storage engine (better-sqlite3: an exception
thrown by any statement rolls the connection back to the state at `BEGIN`,
otherwise everything commits) can be modelled explicitly: `failAt = some k`
injects a failure at the k-th statement of the transaction. -/

/-- One statement inside the restore transaction. -/
inductive RestoreWrite where
  | meta (name : String) (description : Option String) (stage : String)
      (updatedAt : String)
  | step (number : Nat) (status : String) (startedAt completedAt : Option String)
  | file (ftype filename content createdAt updatedAt : String)
deriving DecidableEq, Repr

/-- Effect of one restore statement on the store. -/
def applyRestoreWrite (db : DB) : RestoreWrite → DB
  | .meta n d s ua =>
      { db with plans :=
          match db.plans with
          | [] => []
          | p :: rest => { p with name := n, description := d, stage := s,
                                  updatedAt := ua } :: rest }
  | .step num st sa ca =>
      { db with steps := db.steps.map (fun r =>
          if r.number == num then
            { r with status := st, startedAt := sa, completedAt := ca }
          else r) }
  | .file t fn c ca ua =>
      let f : PlanFile := { ftype := t, filename := fn, content := c,
                            createdAt := ca, updatedAt := ua }
      { db with files := fileUpsert db.files f }

/-- The statement list `restoreCheckpoint` executes: the metadata update,
then one status/timestamp `UPDATE` per snapshot step, then one file upsert
per snapshot file (timestamps taken at restore time). -/
def restoreWrites (snap : CheckpointSnapshot) (now : String) : List RestoreWrite :=
  [RestoreWrite.meta snap.metadata.name (jsOrNone snap.metadata.description)
      snap.metadata.stage now] ++
  snap.steps.map (fun s =>
    RestoreWrite.step s.number s.status (jsOrNone s.startedAt)
      (jsOrNone s.completedAt)) ++
  snap.files.map (fun f => RestoreWrite.file f.ftype f.filename f.content now now)

/-- Run the statements in order; `none` signals the exception raised by the
statement at index `failAt` (counted from `idx`). -/
def execWrites (db : DB) (ws : List RestoreWrite) (failAt : Option Nat)
    (idx : Nat) : Option DB :=
  match ws with
  | [] => some db
  | w :: rest =>
      if failAt = some idx then none
      else execWrites (applyRestoreWrite db w) rest failAt (idx + 1)

/-- better-sqlite3 transaction semantics: commit on success, roll back to the
`BEGIN` state when a statement throws. -/
def runTransaction (db : DB) (ws : List RestoreWrite) (failAt : Option Nat) :
    DB × Bool :=
  match execWrites db ws failAt 0 with
  | some db1 => (db1, true)
  | none => (db, false)

/-- `restoreCheckpoint(name)`: look the checkpoint up, then apply its
snapshot inside a single transaction.  `now` is `new Date().toISOString()`;
`failAt` injects a statement failure for the atomicity analysis. -/
def DB.restoreCheckpoint (db : DB) (name now : String) (failAt : Option Nat) :
    DB × SResult Unit :=
  let cr := db.getCheckpoint name
  match cr.success, cr.data with
  | true, some cp =>
      match runTransaction db (restoreWrites cp.snapshot now) failAt with
      | (db1, true) => (db1, { success := true, data := none, error := none })
      | (db1, false) => (db1, .fail "transaction failed")
  | _, _ => (db, .fail ("Checkpoint not found: " ++ name))

/-! ### Search -/

/-- Does `q` occur in `c` starting at position `i`? -/
def matchesAt (c q : List Char) (i : Nat) : Bool :=
  decide ((c.drop i).take q.length = q)

/-- `content.indexOf(query, pos)`: the first position `≥ pos` where the
query matches (for a nonempty query this coincides with JS `indexOf`). -/
def indexOfFrom (c q : List Char) (pos : Nat) : Option Nat :=
  (List.range (c.length + 1)).find? (fun i => decide (pos ≤ i) && matchesAt c q i)

/-- The `while ((pos = lowerContent.indexOf(lowerQuery, pos)) !== -1)` loop
of `calculateScore`, with explicit fuel: each found occurrence advances the
scan position by the query's length.  `none` means the fuel ran out. -/
def countLoop (c q : List Char) : Nat → Nat → Option Nat
  | 0, _ => none
  | fuel + 1, pos =>
      match indexOfFrom c q pos with
      | none => some 0
      | some i => (countLoop c q fuel (i + q.length)).map (· + 1)

/-- The number of occurrences `calculateScore` counts (non-overlapping,
scanning left to right); `c.length + 1` units of fuel always suffice for a
nonempty query. -/
def occCount (c q : List Char) : Nat :=
  (countLoop c q (c.length + 1) 0).getD 0

/-- ASCII lowercasing of a string into its character list (the ASCII
fragment of JS `toLowerCase`). -/
def lowerStr (s : String) : List Char := s.data.map Char.toLower

/-- `calculateScore(content, query)`: `Math.min(1, count / 10)` over the
case-insensitive occurrence count. -/
def calculateScore (content query : String) : ℚ :=
  min 1 ((occCount (lowerStr content) (lowerStr query) : ℚ) / 10)

/-- `extractSnippet(content, query)`: a window of 50 characters on each side
of the first case-insensitive match, with ellipsis markers at truncated
edges. -/
def extractSnippet (content query : String) : String :=
  match indexOfFrom (lowerStr content) (lowerStr query) 0 with
  | none => String.mk (content.data.take 100) ++ "..."
  | some i =>
      let start := i - 50
      let stop := min content.data.length (i + (lowerStr query).length + 50)
      let snip := String.mk ((content.data.drop start).take (stop - start))
      (if start > 0 then "..." ++ snip else snip) ++
        (if stop < content.data.length then "..." else "")

/-- SQLite `LIKE '%q%'` on ASCII text: case-insensitive substring
containment (for wildcard-free queries). -/
def likeContains (content q : String) : Bool :=
  (indexOfFrom (lowerStr content) (lowerStr q) 0).isSome

/-- One search hit (`SearchResult`). -/
structure SearchResult where
  rtype : String
  id : String
  snippet : String
  score : ℚ
deriving DecidableEq, Repr

/-- `content || description` for an evidence row (JS truthiness). -/
def evidenceSearchText (e : EvidenceRecord) : String :=
  match e.content with
  | some c => if c = "" then e.description else c
  | none => e.description

/-- `search(query)`: pool the step, file and evidence hits and sort the pool
by score descending (JS sort with comparator `b.score - a.score`, stable). -/
def DB.search (db : DB) (q : String) : SResult (List SearchResult) :=
  if db.plans.isEmpty then .fail noPlanMsg
  else
    let stepHits := (db.steps.filter (fun r =>
        likeContains r.title q || likeContains r.content q)).map (fun r =>
      { rtype := "step", id := toString r.number,
        snippet := extractSnippet r.content q,
        score := calculateScore r.content q })
    let fileHits := (db.files.filter (fun r => likeContains r.content q)).map
      (fun r =>
        { rtype := "file", id := r.filename,
          snippet := extractSnippet r.content q,
          score := calculateScore r.content q })
    let evHits := (db.evidence.filter (fun r =>
        likeContains r.description q ||
          (match r.content with
           | some c => likeContains c q
           | none => false))).map (fun r =>
      { rtype := "evidence", id := r.id,
        snippet := extractSnippet (evidenceSearchText r) q,
        score := calculateScore (evidenceSearchText r) q })
    .okSome (sortBy (fun a b => b.score ≤ a.score)
      (stepHits ++ fileHits ++ evHits))

/-! ### Provider views

The migrator and the validator consume a `StorageProvider` only through its
read methods; a provider is therefore modelled by the results its reads
return (reads are stateless during a migration: execution is
single-threaded and neither tool writes to the source). -/

/-- The read surface of a `StorageProvider`. -/
structure ProviderView where
  metadata : SResult PlanMetadata
  steps : SResult (List PlanStep)
  files : SResult (List PlanFile)
  timeline : SResult (List TimelineEvent)
  evidence : SResult (List EvidenceRecord)
  feedback : SResult (List FeedbackRecord)
  checkpoints : SResult (List Checkpoint)
deriving Repr

/-- The view offered by a SQLite store. -/
def DB.view (db : DB) : ProviderView :=
  { metadata := db.getMetadata, steps := db.getSteps, files := db.getFiles,
    timeline := db.getTimelineEvents, evidence := db.getEvidence,
    feedback := db.getFeedback, checkpoints := db.getCheckpoints }

/-! ### MigrationValidator -/

/-- A typed validation error (`expected`/`actual` are opaque `unknown`
payloads in the source and are not modelled). -/
structure ValidationError where
  etype : String
  path : String
  message : String
deriving DecidableEq, Repr

/-- Per-category comparison counts. -/
structure VStats where
  stepsCompared : Nat
  filesCompared : Nat
  timelineEventsCompared : Nat
  evidenceCompared : Nat
  feedbackCompared : Nat
deriving DecidableEq, Repr

/-- The validator's verdict. -/
structure ValidationResult where
  valid : Bool
  errors : List ValidationError
  warnings : List String
  stats : VStats
deriving DecidableEq, Repr

/-- `validateMetadata`: read both sides, then compare id, name, stage. -/
def validateMetadata (s t : SResult PlanMetadata) : List ValidationError :=
  match s.success, s.data with
  | true, some sd =>
      match t.success, t.data with
      | true, some td =>
          (if sd.id = td.id then [] else
            [{ etype := "metadata_difference", path := "metadata.id",
               message := "Plan ID mismatch: expected \"" ++ sd.id ++
                 "\", got \"" ++ td.id ++ "\"" }]) ++
          (if sd.name = td.name then [] else
            [{ etype := "metadata_difference", path := "metadata.name",
               message := "Plan name mismatch: expected \"" ++ sd.name ++
                 "\", got \"" ++ td.name ++ "\"" }]) ++
          (if sd.stage = td.stage then [] else
            [{ etype := "metadata_difference", path := "metadata.stage",
               message := "Plan stage mismatch: expected \"" ++ sd.stage ++
                 "\", got \"" ++ td.stage ++ "\"" }])
      | _, _ =>
          [{ etype := "metadata_difference", path := "metadata",
             message := "Could not read target metadata" }]
  | _, _ =>
      [{ etype := "metadata_difference", path := "metadata",
         message := "Could not read source metadata" }]

/-- The error recorded for a source step absent from the target. -/
def missingStepError (st : PlanStep) : ValidationError :=
  { etype := "missing_step", path := "steps[" ++ toString st.number ++ "]",
    message := "Step " ++ toString st.number ++ " is missing in target" }

/-- `validateSteps`: match by `number`, compare title, status and trimmed
content, then flag target steps with no source counterpart. -/
def validateSteps (s t : SResult (List PlanStep)) :
    List ValidationError × Nat :=
  match s.success, s.data with
  | true, some ss =>
      let ts := t.data.getD []
      (ss.flatMap (fun st =>
          match ts.find? (fun u => u.number == st.number) with
          | none => [missingStepError st]
          | some tu =>
              (if st.title = tu.title then [] else
                [{ etype := "content_mismatch",
                   path := "steps[" ++ toString st.number ++ "].title",
                   message := "Step " ++ toString st.number ++ " title mismatch" }]) ++
              (if st.status = tu.status then [] else
                [{ etype := "content_mismatch",
                   path := "steps[" ++ toString st.number ++ "].status",
                   message := "Step " ++ toString st.number ++ " status mismatch" }]) ++
              (if st.content.trim = tu.content.trim then [] else
                [{ etype := "content_mismatch",
                   path := "steps[" ++ toString st.number ++ "].content",
                   message := "Step " ++ toString st.number ++ " content mismatch" }])) ++
        ts.flatMap (fun tu =>
          match ss.find? (fun u => u.number == tu.number) with
          | none =>
              [{ etype := "content_mismatch",
                 path := "steps[" ++ toString tu.number ++ "]",
                 message := "Unexpected step " ++ toString tu.number ++ " in target" }]
          | some _ => []),
       ss.length)
  | _, _ => ([], 0)

/-- The error recorded for a source file absent from the target. -/
def missingFileError (f : PlanFile) : ValidationError :=
  { etype := "missing_file", path := "files[" ++ f.ftype ++ "/" ++ f.filename ++ "]",
    message := "File " ++ f.filename ++ " (" ++ f.ftype ++ ") is missing in target" }

/-- `validateFiles`: match by `(type, filename)` and compare trimmed
content. -/
def validateFiles (s t : SResult (List PlanFile)) :
    List ValidationError × Nat :=
  match s.success, s.data with
  | true, some ss =>
      let ts := t.data.getD []
      (ss.flatMap (fun sf =>
          match ts.find? (fun u => u.ftype == sf.ftype && u.filename == sf.filename) with
          | none => [missingFileError sf]
          | some tf =>
              if sf.content.trim = tf.content.trim then [] else
                [{ etype := "content_mismatch",
                   path := "files[" ++ sf.ftype ++ "/" ++ sf.filename ++ "].content",
                   message := "File " ++ sf.filename ++ " content mismatch" }]),
       ss.length)
  | _, _ => ([], 0)

/-- The warning recorded for a source timeline event with no
`(type, timestamp)` match in the target. -/
def timelineWarning (e : TimelineEvent) : String :=
  "Timeline event " ++ e.etype ++ " at " ++ e.timestamp ++ " not found in target"

/-- `validateTimeline`: events are matched by `(type, timestamp)`; an
unmatched source event yields a warning, never an error (the function
receives the shared `errors` array and never pushes to it). -/
def validateTimeline (s t : SResult (List TimelineEvent)) :
    List String × Nat :=
  match s.success, s.data with
  | true, some ss =>
      let ts := t.data.getD []
      (ss.flatMap (fun e =>
          if (ts.find? (fun u => u.etype == e.etype && u.timestamp == e.timestamp)).isSome
          then [] else [timelineWarning e]),
       ss.length)
  | _, _ => ([], 0)

/-- The error recorded for a source evidence record absent from the target
(the source tags it `missing_file`). -/
def missingEvidenceError (e : EvidenceRecord) : ValidationError :=
  { etype := "missing_file", path := "evidence[" ++ e.id ++ "]",
    message := "Evidence \"" ++ e.description ++ "\" is missing in target" }

/-- `validateEvidence`: matched by `description`. -/
def validateEvidence (s t : SResult (List EvidenceRecord)) :
    List ValidationError × Nat :=
  match s.success, s.data with
  | true, some ss =>
      let ts := t.data.getD []
      (ss.flatMap (fun se =>
          if (ts.find? (fun u => u.description == se.description)).isSome then []
          else [missingEvidenceError se]),
       ss.length)
  | _, _ => ([], 0)

/-- The error recorded for a source feedback record absent from the target
(the source tags it `missing_file`). -/
def missingFeedbackError (f : FeedbackRecord) : ValidationError :=
  { etype := "missing_file", path := "feedback[" ++ f.id ++ "]",
    message := "Feedback \"" ++ (match f.title with
      | some t => if t = "" then f.id else t
      | none => f.id) ++ "\" is missing in target" }

/-- `validateFeedback`: matched by `content`. -/
def validateFeedback (s t : SResult (List FeedbackRecord)) :
    List ValidationError × Nat :=
  match s.success, s.data with
  | true, some ss =>
      let ts := t.data.getD []
      (ss.flatMap (fun sf =>
          if (ts.find? (fun u => u.content == sf.content)).isSome then []
          else [missingFeedbackError sf]),
       ss.length)
  | _, _ => ([], 0)

/-- `MigrationValidator.validate`: run the six category checks in order
into one error list and one warning list; the verdict is
`errors.length === 0`. -/
def validate (s t : ProviderView) : ValidationResult :=
  let mdErrs := validateMetadata s.metadata t.metadata
  let stp := validateSteps s.steps t.steps
  let fil := validateFiles s.files t.files
  let tml := validateTimeline s.timeline t.timeline
  let evd := validateEvidence s.evidence t.evidence
  let fbk := validateFeedback s.feedback t.feedback
  let errors := mdErrs ++ stp.1 ++ fil.1 ++ evd.1 ++ fbk.1
  { valid := errors.isEmpty, errors := errors, warnings := tml.1,
    stats := { stepsCompared := stp.2, filesCompared := fil.2,
               timelineEventsCompared := tml.2, evidenceCompared := evd.2,
               feedbackCompared := fbk.2 } }

/-! ### PlanMigrator -/

/-- Per-collection copy statistics. -/
structure MigrationStats where
  stepsConverted : Nat
  filesConverted : Nat
  timelineEventsConverted : Nat
  evidenceConverted : Nat
  feedbackConverted : Nat
  checkpointsConverted : Nat
deriving DecidableEq, Repr

/-- The migration options the state model can express (`onProgress` is a
pure notification and `keepSource` only drives filesystem deletion, both
outside the store model). -/
structure MigrationOptions where
  force : Bool
  validateAfter : Bool
deriving DecidableEq, Repr

/-- The migration outcome (paths, formats and wall-clock duration are
passed through verbatim in the source and are not modelled). -/
structure MigrationResult where
  success : Bool
  error : Option String
  warnings : List String
  stats : MigrationStats
deriving DecidableEq, Repr

/-- All-zero statistics. -/
def MigrationStats.zero : MigrationStats :=
  { stepsConverted := 0, filesConverted := 0, timelineEventsConverted := 0,
    evidenceConverted := 0, feedbackConverted := 0, checkpointsConverted := 0 }

/-- `migrateSteps`: read all source steps and insert them one by one,
ignoring each insert's own result; returns the copied count. -/
def migrateSteps (src : ProviderView) (tgt : DB) : DB × Nat :=
  match src.steps.success, src.steps.data with
  | true, some l => (l.foldl (fun db s => (db.addStep s).1) tgt, l.length)
  | _, _ => (tgt, 0)

/-- `migrateFiles`. -/
def migrateFiles (src : ProviderView) (tgt : DB) : DB × Nat :=
  match src.files.success, src.files.data with
  | true, some l => (l.foldl (fun db f => (db.saveFile f).1) tgt, l.length)
  | _, _ => (tgt, 0)

/-- `migrateTimeline`. -/
def migrateTimeline (src : ProviderView) (tgt : DB) : DB × Nat :=
  match src.timeline.success, src.timeline.data with
  | true, some l => (l.foldl (fun db e => (db.addTimelineEvent e).1) tgt, l.length)
  | _, _ => (tgt, 0)

/-- `migrateEvidence`. -/
def migrateEvidence (src : ProviderView) (tgt : DB) : DB × Nat :=
  match src.evidence.success, src.evidence.data with
  | true, some l => (l.foldl (fun db e => (db.addEvidence e).1) tgt, l.length)
  | _, _ => (tgt, 0)

/-- `migrateFeedback`. -/
def migrateFeedback (src : ProviderView) (tgt : DB) : DB × Nat :=
  match src.feedback.success, src.feedback.data with
  | true, some l => (l.foldl (fun db f => (db.addFeedback f).1) tgt, l.length)
  | _, _ => (tgt, 0)

/-- `migrateCheckpoints`. -/
def migrateCheckpoints (src : ProviderView) (tgt : DB) : DB × Nat :=
  match src.checkpoints.success, src.checkpoints.data with
  | true, some l => (l.foldl (fun db c => (db.createCheckpoint c).1) tgt, l.length)
  | _, _ => (tgt, 0)

/-- `PlanMigrator.migrate` into a SQLite target store: refuse an existing
target without `force`; read and install the source metadata; copy steps,
files, timeline, evidence, feedback, checkpoints in that fixed order; then
optionally validate.  Source deletion (`keepSource`) and progress reporting
are filesystem/notification effects outside the store state. -/
def migrate (src : ProviderView) (tgt : DB) (opts : MigrationOptions) :
    DB × MigrationResult :=
  if tgt.existsPlan && !opts.force then
    (tgt, { success := false, error := some "Target already exists. Use force option to overwrite.",
            warnings := [], stats := .zero })
  else
    match src.metadata.success, src.metadata.data with
    | true, some md =>
        let ini := tgt.initializeStore md
        if ini.2.success = false then
          (ini.1, { success := false,
                    error := some ("Failed to initialize target: " ++
                      ini.2.error.getD "undefined"),
                    warnings := [], stats := .zero })
        else
          let s1 := migrateSteps src ini.1
          let s2 := migrateFiles src s1.1
          let s3 := migrateTimeline src s2.1
          let s4 := migrateEvidence src s3.1
          let s5 := migrateFeedback src s4.1
          let s6 := migrateCheckpoints src s5.1
          let stats : MigrationStats :=
            { stepsConverted := s1.2, filesConverted := s2.2,
              timelineEventsConverted := s3.2, evidenceConverted := s4.2,
              feedbackConverted := s5.2, checkpointsConverted := s6.2 }
          if opts.validateAfter then
            let vr := validate src s6.1.view
            if vr.valid = false then
              (s6.1, { success := false,
                       error := some ("Validation failed: " ++
                         String.intercalate "; " (vr.errors.map (fun e => e.message))),
                       warnings := vr.warnings, stats := stats })
            else
              (s6.1, { success := true, error := none, warnings := vr.warnings,
                       stats := stats })
          else
            (s6.1, { success := true, error := none, warnings := [], stats := stats })
    | _, _ =>
        (tgt, { success := false,
                error := some ("Failed to read source metadata: " ++
                  src.metadata.error.getD "undefined"),
                warnings := [], stats := .zero })

/-! ### Format heuristics (storage/utils.ts)

The filesystem is modelled as a finite map from paths to entries; a file
entry carries its byte content.  `join(a, b)` is `a ++ "/" ++ b`. -/

/-- A filesystem entry. -/
inductive FsEntry where
  | file (bytes : List Nat)
  | dir
deriving DecidableEq, Repr

/-- A snapshot of the filesystem. -/
structure FS where
  entries : List (String × FsEntry)
deriving Repr

/-- Path lookup (`statSync`). -/
def FS.lookup (fs : FS) (p : String) : Option FsEntry :=
  (fs.entries.find? (fun e => e.1 == p)).map (fun e => e.2)

/-- `existsSync`. -/
def FS.pathExists (fs : FS) (p : String) : Bool := (fs.lookup p).isSome

/-- `path.join` for the needs of the heuristics. -/
def joinPath (a b : String) : String := a ++ "/" ++ b

/-- The 16 magic bytes `"SQLite format 3\0"`. -/
def SQLITE_HEADER : List Nat :=
  [83, 81, 76, 105, 116, 101, 32, 102, 111, 114, 109, 97, 116, 32, 51, 0]

/-- The fixed directory-format marker filenames. -/
def DIRECTORY_PLAN_MARKERS : List String :=
  ["SUMMARY.md", "STATUS.md", "IDEA.md", "EXECUTION_PLAN.md"]

/-- JS `String.prototype.endsWith`, computed on character lists. -/
def strEndsWith (s suf : String) : Bool := List.isSuffixOf suf.data s.data

/-- `hasSqliteHeader(path)`: false for missing, unreadable or too-short
files, true exactly when the leading bytes equal the magic header. -/
def hasSqliteHeader (fs : FS) (p : String) : Bool :=
  match fs.lookup p with
  | some (.file bytes) =>
      decide (SQLITE_HEADER.length ≤ bytes.length) &&
        decide (bytes.take SQLITE_HEADER.length = SQLITE_HEADER)
  | _ => false

/-- `detectPlanFormat(path)`: `"directory"`, `"sqlite"` or `"unknown"`. -/
def detectPlanFormat (fs : FS) (p : String) : String :=
  match fs.lookup p with
  | none => "unknown"
  | some .dir =>
      if DIRECTORY_PLAN_MARKERS.any (fun m => fs.pathExists (joinPath p m)) then
        "directory"
      else if fs.lookup (joinPath p "plan") = some .dir then "directory"
      else "unknown"
  | some (.file _) =>
      if hasSqliteHeader fs p then "sqlite"
      else if strEndsWith p ".plan" then "unknown"
      else "unknown"

/-- The unit success envelope `{ success: true }`. -/
def okU : SResult Unit := { success := true, data := none, error := none }

/-- Stated from the claim's wording, for comparison with `calculateScore`:
the number of case-insensitive substring occurrences of the query in the
content, i.e. the number of starting positions where the query matches. -/
def claimOccurrenceCount (c q : List Char) : Nat :=
  ((List.range (c.length + 1)).filter (fun i => matchesAt c q i)).length

/-- The `plans` row `initialize` writes for metadata `md`. -/
def migRow (md : PlanMetadata) : PlanRow :=
  { code := md.id, name := md.name, description := jsOrNone md.description,
    stage := md.stage, createdAt := md.createdAt, updatedAt := md.updatedAt,
    schemaVersion := md.schemaVersion }

/-- The target store contents after the migration copy phases. -/
def migDb (md : PlanMetadata) (S : List PlanStep) (F : List PlanFile)
    (E : List TimelineEvent) (V : List EvidenceRecord) (B : List FeedbackRecord)
    (cps : List Checkpoint) : DB :=
  { plans := [migRow md], steps := S.map stepRowConv, files := F, events := E,
    evidence := V.map evidenceWriteRow, feedback := B.map feedbackWriteRow,
    checkpoints := cps, uuidSeed := 0 }

/-! ## Shared example fixtures -/

/-- Example metadata for plan `plan-a`. -/
def exMetaA : PlanMetadata :=
  { id := "plan-a", name := "Plan A", description := some "a demo plan",
    createdAt := "2026-01-01T00:00:00.000Z",
    updatedAt := "2026-01-01T00:00:00.000Z", stage := "idea", schemaVersion := 1 }

/-- Example metadata for plan `plan-b`. -/
def exMetaB : PlanMetadata := { exMetaA with id := "plan-b" }

/-- A store holding exactly the `plan-a` metadata row. -/
def exDbOnePlan : DB := (DB.empty.initializeStore exMetaA).1

/-- The `plans` row `exDbOnePlan` holds. -/
def exRowA : PlanRow :=
  { code := "plan-a", name := "Plan A", description := some "a demo plan",
    stage := "idea", createdAt := "2026-01-01T00:00:00.000Z",
    updatedAt := "2026-01-01T00:00:00.000Z", schemaVersion := 1 }

/-- A file row used by the save-file example store. -/
def exFileOrig : PlanFile :=
  { ftype := "idea", filename := "IDEA.md", content := "# original",
    createdAt := "2026-01-01T00:00:00.000Z",
    updatedAt := "2026-01-01T00:00:00.000Z" }

/-- A store holding the `plan-a` row and one file. -/
def exDbFile : DB := { exDbOnePlan with files := [exFileOrig] }

/-- Replacement content for the `(idea, IDEA.md)` key. -/
def exFileNew : PlanFile :=
  { ftype := "idea", filename := "IDEA.md", content := "# updated",
    createdAt := "2026-01-04T00:00:00.000Z",
    updatedAt := "2026-01-05T00:00:00.000Z" }

/-- A step row used by the checkpoint example store. -/
def exStep1 : PlanStep :=
  { number := 1, code := "step-1", title := "First step", description := none,
    status := "in_progress", startedAt := some "2026-01-02T00:00:00.000Z",
    completedAt := none, content := "do the thing" }

/-- An example checkpoint capturing step 1 as pending and one file. -/
def exCp : Checkpoint :=
  { name := "cp1", message := "before work", createdAt := "2026-01-02T00:00:00.000Z",
    snapshot :=
      { metadata := exMetaA,
        steps := [{ number := 1, status := "pending", startedAt := none,
                    completedAt := none }],
        files := [{ ftype := "idea", filename := "IDEA.md", content := "# original" }] } }

/-- A store holding the `plan-a` row, one step and the `cp1` checkpoint. -/
def exDbCp : DB :=
  { exDbOnePlan with steps := [exStep1], checkpoints := [exCp] }

/-- An example timeline event. -/
def exEvent1 : TimelineEvent :=
  { id := "ev-1", timestamp := "2026-01-02T03:00:00.000Z",
    etype := "plan_created", data := "null" }

/-- An example evidence record. -/
def exEvid1 : EvidenceRecord :=
  { id := "evd-1", description := "benchmark numbers", source := some "paper",
    sourceUrl := none, gatheringMethod := some "manual",
    content := some "p99 latency table", filePath := none,
    relevanceScore := some 1, originalQuery := none, summary := none,
    createdAt := "2026-01-02T04:00:00.000Z" }

/-- An example feedback record. -/
def exFb1 : FeedbackRecord :=
  { id := "fb-1", title := some "review", platform := some "forum",
    content := "looks good overall", participants := some ["ana", "bo"],
    createdAt := "2026-01-02T05:00:00.000Z" }

/-- A source view holding one record of every kind. -/
def exSrcView : ProviderView :=
  { metadata := .okSome exMetaA, steps := .okSome [exStep1],
    files := .okSome [exFileOrig], timeline := .okSome [exEvent1],
    evidence := .okSome [exEvid1], feedback := .okSome [exFb1],
    checkpoints := .okSome [exCp] }

/-- A target view with matching metadata but every collection empty. -/
def exTgtEmptyView : ProviderView :=
  { metadata := .okSome exMetaA, steps := .okSome [], files := .okSome [],
    timeline := .okSome [], evidence := .okSome [], feedback := .okSome [],
    checkpoints := .okSome [] }

/-- A source view whose bulk reads all fail and whose timeline is empty. -/
def exSrcUnreadableView : ProviderView :=
  { metadata := .okSome exMetaA, steps := .fail "disk error",
    files := .fail "disk error", timeline := .fail "disk error",
    evidence := .fail "disk error", feedback := .fail "disk error",
    checkpoints := .fail "disk error" }

/-- The field-wise effect a step patch ought to have: supplied fields are
written, absent fields keep the row's old value. -/
def stepPatchApplied (u : StepPatch) (r : PlanStep) : PlanStep :=
  { number := r.number, code := u.code.getD r.code,
    title := u.title.getD r.title,
    description := (match u.description with
      | some v => some v
      | none => r.description),
    status := u.status.getD r.status,
    startedAt := (match u.startedAt with
      | some v => some v
      | none => r.startedAt),
    completedAt := (match u.completedAt with
      | some v => some v
      | none => r.completedAt),
    content := u.content.getD r.content }

/-- The field-wise effect a metadata patch ought to have, together with the
unconditional refresh of `updated_at`. -/
def metadataPatchApplied (v : MetadataPatch) (now : String) (p : PlanRow) :
    PlanRow :=
  { code := p.code, name := v.name.getD p.name,
    description := (match v.description with
      | some d => some d
      | none => p.description),
    stage := v.stage.getD p.stage, createdAt := p.createdAt,
    updatedAt := now, schemaVersion := p.schemaVersion }

/-! ## Auxiliary lemmas -/

theorem find?_eq_head_filter {α : Type} (p : α → Bool) (l : List α) :
    l.find? p = (l.filter p).head? := by
  induction l with
  | nil => rfl
  | cons x xs ih =>
      by_cases hx : p x = true
      · rw [List.find?_cons_of_pos _ hx, List.filter_cons_of_pos hx]
        rfl
      · rw [List.find?_cons_of_neg _ (by simp [hx]),
          List.filter_cons_of_neg (by simp [hx]), ih]

theorem find?_isSome_of_exists {α : Type} {p : α → Bool} {l : List α}
    (h : ∃ x ∈ l, p x = true) : (l.find? p).isSome = true := by
  rw [List.find?_isSome]
  simpa using h

theorem find?_eq_some_of_unique {α : Type} {p : α → Bool} {l : List α} {a : α}
    (ha : a ∈ l) (hp : p a = true) (huniq : ∀ b ∈ l, p b = true → b = a) :
    l.find? p = some a := by
  induction l with
  | nil => simp at ha
  | cons x xs ih =>
      by_cases hx : p x = true
      · have hxa : x = a := huniq x (List.mem_cons_self x xs) hx
        rw [List.find?_cons_of_pos _ hx, hxa]
      · have hne : a ≠ x := fun h => hx (h ▸ hp)
        have ha2 : a ∈ xs := by
          rcases List.mem_cons.1 ha with h | h
          · exact absurd h hne
          · exact h
        rw [List.find?_cons_of_neg _ (by simp [hx])]
        exact ih ha2 (fun b hb hpb => huniq b (List.mem_cons_of_mem x hb) hpb)

theorem flatMap_eq_nil_of_forall {α β : Type} {f : α → List β} {l : List α}
    (h : ∀ x ∈ l, f x = []) : l.flatMap f = [] := by
  induction l with
  | nil => rfl
  | cons x xs ih =>
      rw [List.flatMap_cons, h x (List.mem_cons_self x xs), List.nil_append]
      exact ih (fun y hy => h y (List.mem_cons_of_mem x hy))

theorem map_key_unique {α β : Type} {k : α → β} {l : List α} {a b : α}
    (hnd : (l.map k).Nodup) (ha : a ∈ l) (hb : b ∈ l) (hk : k a = k b) :
    a = b := by
  induction l with
  | nil => simp at ha
  | cons x xs ih =>
      rw [List.map_cons, List.nodup_cons] at hnd
      rcases List.mem_cons.1 ha with rfl | ha2
      · rcases List.mem_cons.1 hb with rfl | hb2
        · rfl
        · exact absurd (hk ▸ List.mem_map_of_mem k hb2) hnd.1
      · rcases List.mem_cons.1 hb with rfl | hb2
        · exact absurd (hk ▸ List.mem_map_of_mem k ha2) hnd.1
        · exact ih hnd.2 ha2 hb2

/-! ### Sorting lemmas -/

theorem insertSorted_perm {α : Type} (le : α → α → Bool) (x : α) (l : List α) :
    (insertSorted le x l).Perm (x :: l) := by
  induction l with
  | nil => exact List.Perm.refl _
  | cons y ys ih =>
      by_cases h : le x y = true
      · rw [insertSorted, if_pos h]
      · rw [insertSorted, if_neg (by simp [h])]
        exact (List.Perm.cons y ih).trans (List.Perm.swap x y ys)

theorem sortBy_perm {α : Type} (le : α → α → Bool) (l : List α) :
    (sortBy le l).Perm l := by
  induction l with
  | nil => exact List.Perm.refl _
  | cons x xs ih =>
      exact (insertSorted_perm le x (sortBy le xs)).trans (List.Perm.cons x ih)

theorem insertSorted_pairwise {α : Type} {le : α → α → Bool}
    (htot : ∀ a b, le a b = true ∨ le b a = true)
    (htrans : ∀ a b c, le a b = true → le b c = true → le a c = true)
    {x : α} {l : List α}
    (hl : l.Pairwise (fun a b => le a b = true)) :
    (insertSorted le x l).Pairwise (fun a b => le a b = true) := by
  induction l with
  | nil => simp [insertSorted]
  | cons y ys ih =>
      rw [List.pairwise_cons] at hl
      by_cases h : le x y = true
      · rw [insertSorted, if_pos h, List.pairwise_cons]
        refine ⟨?_, List.pairwise_cons.2 hl⟩
        intro b hb
        rcases List.mem_cons.1 hb with rfl | hb2
        · exact h
        · exact htrans x y b h (hl.1 b hb2)
      · rw [insertSorted, if_neg (by simp [h]), List.pairwise_cons]
        refine ⟨?_, ih hl.2⟩
        intro b hb
        have hb2 := (insertSorted_perm le x ys).mem_iff.1 hb
        rcases List.mem_cons.1 hb2 with rfl | hb3
        · rcases htot b y with hby | hyb
          · exact absurd hby (by simp [h])
          · exact hyb
        · exact hl.1 b hb3

theorem sortBy_pairwise {α : Type} {le : α → α → Bool}
    (htot : ∀ a b, le a b = true ∨ le b a = true)
    (htrans : ∀ a b c, le a b = true → le b c = true → le a c = true)
    (l : List α) :
    (sortBy le l).Pairwise (fun a b => le a b = true) := by
  induction l with
  | nil => simp [sortBy]
  | cons x xs ih => exact insertSorted_pairwise htot htrans ih

theorem sortBy_eq_of_pairwise {α : Type} {le : α → α → Bool} {l : List α}
    (hl : l.Pairwise (fun a b => le a b = true)) : sortBy le l = l := by
  induction l with
  | nil => rfl
  | cons x xs ih =>
      rw [List.pairwise_cons] at hl
      rw [sortBy, ih hl.2]
      cases xs with
      | nil => rfl
      | cons y ys => rw [insertSorted, if_pos (hl.1 y (List.mem_cons_self y ys))]

/-! ## C9: termination of the occurrence-counting loop -/

theorem indexOfFrom_bounds {c q : List Char} {pos i : Nat}
    (h : indexOfFrom c q pos = some i) :
    pos ≤ i ∧ matchesAt c q i = true ∧ i ≤ c.length := by
  have hp := List.find?_some h
  have hm := List.mem_of_find?_eq_some h
  rw [Bool.and_eq_true, decide_eq_true_eq] at hp
  have hi := List.mem_range.1 hm
  exact ⟨hp.1, hp.2, by omega⟩

theorem matchesAt_le {c q : List Char} {i : Nat} (hq : q ≠ [])
    (h : matchesAt c q i = true) : i + q.length ≤ c.length := by
  rw [matchesAt, decide_eq_true_eq] at h
  have hlen : ((c.drop i).take q.length).length = q.length := by rw [h]
  rw [List.length_take, List.length_drop] at hlen
  have hq1 : 1 ≤ q.length := by
    cases q with
    | nil => exact absurd rfl hq
    | cons a as => simp
  omega

theorem countLoop_isSome {c q : List Char} (hq : q ≠ []) :
    ∀ fuel pos, pos ≤ c.length → c.length + 1 - pos ≤ fuel →
      (countLoop c q fuel pos).isSome = true := by
  intro fuel
  induction fuel with
  | zero => intro pos h1 h2; omega
  | succ fuel ih =>
      intro pos h1 h2
      cases h : indexOfFrom c q pos with
      | none => simp [countLoop, h]
      | some i =>
          obtain ⟨hpi, hmatch, hic⟩ := indexOfFrom_bounds h
          have hbound := matchesAt_le hq hmatch
          have hq1 : 1 ≤ q.length := by
            cases q with
            | nil => exact absurd rfl hq
            | cons a as => simp
          have ih2 := ih (i + q.length) (by omega) (by omega)
          cases h3 : countLoop c q fuel (i + q.length) with
          | none => rw [h3] at ih2; simp at ih2
          | some n => simp [countLoop, h, h3]

/-- C9: for every content and every nonempty query, the occurrence-counting
loop of `calculateScore` terminates: each found occurrence advances the scan
position by the query\'s length, so `content.length + 1` probes (at most
`content.length` loop iterations plus the final failing `indexOf`) always
suffice, and `calculateScore` is `min(1, n/10)` over the count the loop
produces. -/
theorem calculateScore_loop_terminates (content query : String)
    (hq : query ≠ "") :
    ∃ n, countLoop (lowerStr content) (lowerStr query)
        ((lowerStr content).length + 1) 0 = some n ∧
      calculateScore content query = min 1 ((n : ℚ) / 10) := by
  have hql : lowerStr query ≠ [] := by
    cases query with
    | mk data =>
        cases data with
        | nil => exact absurd rfl hq
        | cons a as => simp [lowerStr]
  have h := countLoop_isSome (c := lowerStr content) hql
    ((lowerStr content).length + 1) 0 (Nat.zero_le _) (by omega)
  cases h3 : countLoop (lowerStr content) (lowerStr query)
      ((lowerStr content).length + 1) 0 with
  | none => rw [h3] at h; simp at h
  | some n =>
      refine ⟨n, rfl, ?_⟩
      rw [calculateScore, occCount, h3]
      rfl

/-- Witness for C9 at a concrete content and query. -/
theorem calculateScore_loop_terminates_witness :
    ∃ n, countLoop (lowerStr "abab") (lowerStr "ab")
        ((lowerStr "abab").length + 1) 0 = some n ∧
      calculateScore "abab" "ab" = min 1 ((n : ℚ) / 10) :=
  calculateScore_loop_terminates "abab" "ab" (by decide)

/-! ## C7: format detection -/

theorem hasSqliteHeader_iff {fs : FS} {p : String} {bs : List Nat}
    (h : fs.lookup p = some (.file bs)) :
    hasSqliteHeader fs p = true ↔ bs.take 16 = SQLITE_HEADER := by
  rw [hasSqliteHeader, h]
  have hhl : SQLITE_HEADER.length = 16 := rfl
  rw [hhl, Bool.and_eq_true, decide_eq_true_eq, decide_eq_true_eq]
  constructor
  · intro hand; exact hand.2
  · intro htake
    refine ⟨?_, htake⟩
    have hl16 : (bs.take 16).length = 16 := by rw [htake]; rfl
    rw [List.length_take] at hl16
    omega

/-- C7: `detectPlanFormat` classifies a nonexistent path as `unknown`; an
existing directory as `directory` exactly when it holds one of the fixed
marker filenames or a `plan` subdirectory (otherwise `unknown`); an existing
regular file as `sqlite` exactly when its first 16 bytes equal the SQLite
magic header, so a `.plan` file failing the header check is `unknown`. -/
theorem detectPlanFormat_spec (fs : FS) (p : String) :
    (fs.lookup p = none → detectPlanFormat fs p = "unknown") ∧
    (fs.lookup p = some .dir →
      (detectPlanFormat fs p = "directory" ↔
        (∃ m ∈ DIRECTORY_PLAN_MARKERS, fs.pathExists (joinPath p m) = true) ∨
          fs.lookup (joinPath p "plan") = some .dir) ∧
      (detectPlanFormat fs p = "directory" ∨ detectPlanFormat fs p = "unknown")) ∧
    (∀ bs, fs.lookup p = some (.file bs) →
      (detectPlanFormat fs p = "sqlite" ↔ bs.take 16 = SQLITE_HEADER) ∧
      (strEndsWith p ".plan" = true → bs.take 16 ≠ SQLITE_HEADER →
        detectPlanFormat fs p = "unknown")) := by
  refine ⟨?_, ?_, ?_⟩
  · intro h; rw [detectPlanFormat, h]
  · intro h
    have hd : detectPlanFormat fs p =
        (if (DIRECTORY_PLAN_MARKERS.any fun m => fs.pathExists (joinPath p m)) = true
         then "directory"
         else if fs.lookup (joinPath p "plan") = some .dir then "directory"
         else "unknown") := by
      simp only [detectPlanFormat, h]
    by_cases h1 : (DIRECTORY_PLAN_MARKERS.any fun m => fs.pathExists (joinPath p m)) = true
    · rw [hd, if_pos h1]
      refine ⟨⟨fun _ => ?_, fun _ => rfl⟩, Or.inl rfl⟩
      left
      obtain ⟨m, hm, hpe⟩ := List.any_eq_true.1 h1
      exact ⟨m, hm, hpe⟩
    · by_cases h2 : fs.lookup (joinPath p "plan") = some .dir
      · rw [hd, if_neg h1, if_pos h2]
        exact ⟨⟨fun _ => Or.inr h2, fun _ => rfl⟩, Or.inl rfl⟩
      · rw [hd, if_neg h1, if_neg h2]
        refine ⟨⟨fun hc => absurd hc (by decide), fun hcase => ?_⟩, Or.inr rfl⟩
        rcases hcase with ⟨m, hm, hpe⟩ | hdir
        · exact absurd (List.any_eq_true.2 ⟨m, hm, hpe⟩) h1
        · exact absurd hdir h2
  · intro bs h
    have hd : detectPlanFormat fs p =
        (if hasSqliteHeader fs p = true then "sqlite"
         else if strEndsWith p ".plan" = true then "unknown" else "unknown") := by
      simp only [detectPlanFormat, h]
    by_cases hh : hasSqliteHeader fs p = true
    · rw [hd, if_pos hh]
      have htake := (hasSqliteHeader_iff h).1 hh
      exact ⟨⟨fun _ => htake, fun _ => rfl⟩,
        fun _ hcontra => absurd htake hcontra⟩
    · rw [hd, if_neg hh]
      have htake : ¬ bs.take 16 = SQLITE_HEADER :=
        fun hc => hh ((hasSqliteHeader_iff h).2 hc)
      constructor
      · constructor
        · intro hcontra
          by_cases hext : strEndsWith p ".plan" = true
          · rw [if_pos hext] at hcontra; exact absurd hcontra (by decide)
          · rw [if_neg hext] at hcontra; exact absurd hcontra (by decide)
        · intro hc; exact absurd hc htake
      · intro hext _
        rw [if_pos hext]

/-! ## C5: initialize conflict behaviour -/

/-- C5 counterexample: the store already holds a plan row (code `plan-a`),
yet `initialize` with metadata of a different code succeeds and a second
plan row appears — the conflict error fires only on an identical code. -/
theorem initialize_any_plan_counterexample :
    (exDbOnePlan.initializeStore exMetaB).2.success = true ∧
    (exDbOnePlan.initializeStore exMetaB).1.plans.length = 2 := by decide

/-- C5 amended: `initialize(m)` fails with the `UNIQUE(code)` conflict and
leaves the store unchanged exactly when an existing plan row carries the
code `m.id`; otherwise — in particular on an empty store — it succeeds and
appends exactly one new plan row built from `m`. -/
theorem initialize_spec (db : DB) (m : PlanMetadata) :
    ((∃ p ∈ db.plans, p.code = m.id) →
      (db.initializeStore m).2.success = false ∧ (db.initializeStore m).1 = db) ∧
    ((∀ p ∈ db.plans, p.code ≠ m.id) →
      (db.initializeStore m).2.success = true ∧
      (db.initializeStore m).1 = { db with plans := db.plans ++
        [{ code := m.id, name := m.name, description := jsOrNone m.description,
           stage := m.stage, createdAt := m.createdAt, updatedAt := m.updatedAt,
           schemaVersion := m.schemaVersion }] }) := by
  constructor
  · intro hex
    have hany : db.plans.any (fun p => p.code == m.id) = true := by
      rcases hex with ⟨p, hp, hc⟩
      exact List.any_eq_true.2 ⟨p, hp, by simp [hc]⟩
    rw [DB.initializeStore, if_pos hany]
    exact ⟨rfl, rfl⟩
  · intro hall
    have hany : ¬ db.plans.any (fun p => p.code == m.id) = true := by
      intro hc
      rcases List.any_eq_true.1 hc with ⟨p, hp, hb⟩
      exact hall p hp (by simpa using hb)
    rw [DB.initializeStore, if_neg hany]
    exact ⟨rfl, rfl⟩

/-- Witness for C5: the conflict case on a same-code store and the success
case on a store holding only a different code. -/
theorem initialize_spec_witness :
    ((exDbOnePlan.initializeStore exMetaA).2.success = false ∧
      (exDbOnePlan.initializeStore exMetaA).1 = exDbOnePlan) ∧
    ((exDbOnePlan.initializeStore exMetaB).2.success = true ∧
      (exDbOnePlan.initializeStore exMetaB).1 = { exDbOnePlan with
        plans := exDbOnePlan.plans ++
          [{ code := exMetaB.id, name := exMetaB.name,
             description := jsOrNone exMetaB.description, stage := exMetaB.stage,
             createdAt := exMetaB.createdAt, updatedAt := exMetaB.updatedAt,
             schemaVersion := exMetaB.schemaVersion }] }) :=
  ⟨(initialize_spec exDbOnePlan exMetaA).1 (by decide),
   (initialize_spec exDbOnePlan exMetaB).2 (by decide)⟩

/-! ## C4: partial patches in updateStep / updateMetadata -/

theorem stepSetters_apply (u : StepPatch) (r : PlanStep) :
    (stepSetters u).foldl (fun q f => f q) r = stepPatchApplied u r := by
  rcases u with ⟨c, t, d, st, sa, ca, co⟩
  cases c <;> cases t <;> cases d <;> cases st <;> cases sa <;> cases ca <;>
    cases co <;> rfl

theorem metadataSetters_apply (v : MetadataPatch) (now : String) (p : PlanRow) :
    (metadataSetters v now).foldl (fun q f => f q) p =
      metadataPatchApplied v now p := by
  rcases v with ⟨n, d, st⟩
  cases n <;> cases d <;> cases st <;> rfl

theorem stepPatchApplied_empty (r : PlanStep) : stepPatchApplied {} r = r := rfl

/-- C4 counterexample: an `updateMetadata` call that supplies no fields at
all still succeeds but rewrites `updated_at` to the call time, so the
record is not left completely unchanged. -/
theorem updateMetadata_noop_counterexample :
    (exDbOnePlan.updateMetadata {} "2026-02-02T00:00:00.000Z").2.success = true ∧
    (exDbOnePlan.updateMetadata {} "2026-02-02T00:00:00.000Z").1 ≠ exDbOnePlan := by
  decide

/-- C4 amended: `updateStep` writes exactly the supplied fields of the rows
matching the step number (`stepPatchApplied`), leaves absent fields
untouched, and an all-absent patch is a successful complete no-op;
`updateMetadata` writes exactly the supplied fields among
name/description/stage and leaves the rest untouched, except that it always
refreshes `updated_at` to the call time (`metadataPatchApplied`), so its
all-absent patch succeeds but still changes `updated_at`. -/
theorem updateStep_updateMetadata_patch_spec
    (db : DB) (n : Nat) (u : StepPatch) (v : MetadataPatch) (now : String)
    (p : PlanRow) (rest : List PlanRow) (h : db.plans = p :: rest) :
    ((db.updateStep n {}).1 = db ∧ (db.updateStep n {}).2.success = true) ∧
    ((db.updateStep n u).2.success = true ∧
      (db.updateStep n u).1 = { db with steps := db.steps.map (fun r =>
        if r.number = n then stepPatchApplied u r else r) }) ∧
    ((db.updateMetadata v now).2.success = true ∧
      (db.updateMetadata v now).1 =
        { db with plans := metadataPatchApplied v now p :: rest }) := by
  refine ⟨⟨rfl, rfl⟩, ?_, ?_⟩
  · by_cases hfs : (stepSetters u).isEmpty = true
    · have hnil : stepSetters u = [] := by
        cases hl : stepSetters u with
        | nil => rfl
        | cons a as => rw [hl] at hfs; simp at hfs
      have hrec : ∀ r : PlanStep, stepPatchApplied u r = r := by
        intro r
        rw [← stepSetters_apply, hnil]
        rfl
      have hmap : db.steps.map (fun r =>
          if r.number = n then stepPatchApplied u r else r) = db.steps := by
        have hcongr := List.map_congr_left (l := db.steps)
          (f := fun r : PlanStep => if r.number = n then stepPatchApplied u r else r)
          (g := id)
          (fun r _ => by
            simp only [id_eq]
            by_cases hrn : r.number = n
            · rw [if_pos hrn, hrec r]
            · rw [if_neg hrn])
        rw [hcongr, List.map_id]
      have hupd : db.updateStep n u = (db, okU) := by
        simp only [DB.updateStep]
        rw [if_pos hfs]
        rfl
      rw [hupd]
      refine ⟨rfl, ?_⟩
      show db = { db with steps := db.steps.map (fun r =>
        if r.number = n then stepPatchApplied u r else r) }
      rw [hmap]
    · have hplans : ¬ db.plans.isEmpty = true := by rw [h]; simp
      have hupd : db.updateStep n u =
          ({ db with steps := db.steps.map (fun r =>
              if r.number == n then
                (stepSetters u).foldl (fun q f => f q) r
              else r) }, okU) := by
        simp only [DB.updateStep]
        rw [if_neg hfs, if_neg hplans]
        rfl
      have hmap : db.steps.map (fun r =>
          if r.number == n then (stepSetters u).foldl (fun q f => f q) r else r) =
          db.steps.map (fun r =>
            if r.number = n then stepPatchApplied u r else r) := by
        refine List.map_congr_left (fun r _ => ?_)
        by_cases hrn : r.number = n
        · rw [if_pos (by simp [hrn]), if_pos hrn, stepSetters_apply]
        · rw [if_neg (by simp [hrn]), if_neg hrn]
      rw [hupd]
      exact ⟨rfl, by rw [hmap]⟩
  · have hupd : db.updateMetadata v now =
        ({ db with plans := metadataPatchApplied v now p :: rest }, okU) := by
      simp only [DB.updateMetadata, h]
      rw [metadataSetters_apply]
      rfl
    rw [hupd]
    exact ⟨rfl, rfl⟩

/-- Witness for C4 at a concrete store, step patch and metadata patch. -/
theorem updateStep_updateMetadata_patch_spec_witness :
    ((exDbOnePlan.updateStep 1 {}).1 = exDbOnePlan ∧
      (exDbOnePlan.updateStep 1 {}).2.success = true) ∧
    ((exDbOnePlan.updateStep 1 { status := some "completed" }).2.success = true ∧
      (exDbOnePlan.updateStep 1 { status := some "completed" }).1 =
        { exDbOnePlan with steps := exDbOnePlan.steps.map (fun r =>
          if r.number = 1 then
            stepPatchApplied { status := some "completed" } r
          else r) }) ∧
    ((exDbOnePlan.updateMetadata { stage := some "shaping" }
        "2026-03-03T00:00:00.000Z").2.success = true ∧
      (exDbOnePlan.updateMetadata { stage := some "shaping" }
        "2026-03-03T00:00:00.000Z").1 =
        { exDbOnePlan with plans := [metadataPatchApplied
            { stage := some "shaping" } "2026-03-03T00:00:00.000Z" exRowA] }) :=
  updateStep_updateMetadata_patch_spec exDbOnePlan 1
    { status := some "completed" } { stage := some "shaping" }
    "2026-03-03T00:00:00.000Z" exRowA [] (by decide)

/-! ## C3: saveFile upsert -/

theorem filter_fileKey_nil {l : List PlanFile} {t fn : String}
    (h : ∀ u ∈ l, ¬ (u.ftype = t ∧ u.filename = fn)) :
    l.filter (fun u => u.ftype == t && u.filename == fn) = [] := by
  induction l with
  | nil => rfl
  | cons x xs ih =>
      have hx : (x.ftype == t && x.filename == fn) = false := by
        have := h x (List.mem_cons_self x xs)
        by_cases h1 : x.ftype = t
        · by_cases h2 : x.filename = fn
          · exact absurd ⟨h1, h2⟩ this
          · simp [h2]
        · simp [h1]
      rw [List.filter_cons_of_neg (by simp [hx]), ih]
      intro u hu
      exact h u (List.mem_cons_of_mem x hu)

theorem filter_fileKey_singleton {l : List PlanFile} {r : PlanFile}
    (hnd : (l.map (fun u => (u.ftype, u.filename))).Nodup) (hr : r ∈ l) :
    l.filter (fun u => u.ftype == r.ftype && u.filename == r.filename) = [r] := by
  induction l with
  | nil => simp at hr
  | cons x xs ih =>
      rw [List.map_cons, List.nodup_cons] at hnd
      rcases List.mem_cons.1 hr with rfl | hr2
      · rw [List.filter_cons_of_pos (by simp)]
        rw [filter_fileKey_nil]
        intro u hu hcon
        exact hnd.1 (by
          rw [← hcon.1, ← hcon.2]
          exact List.mem_map_of_mem _ hu)
      · have hxne : ¬ (x.ftype = r.ftype ∧ x.filename = r.filename) := by
          intro hcon
          exact hnd.1 (by
            rw [hcon.1, hcon.2]
            exact List.mem_map_of_mem _ hr2)
        have hx : (x.ftype == r.ftype && x.filename == r.filename) = false := by
          by_cases h1 : x.ftype = r.ftype
          · by_cases h2 : x.filename = r.filename
            · exact absurd ⟨h1, h2⟩ hxne
            · simp [h2]
          · simp [h1]
        rw [List.filter_cons_of_neg (by simp [hx]), ih hnd.2 hr2]

theorem fileUpsert_filter {l : List PlanFile} {f : PlanFile}
    (hnd : (l.map (fun u => (u.ftype, u.filename))).Nodup) :
    (fileUpsert l f).filter (fun u => u.ftype == f.ftype && u.filename == f.filename) =
      [match l.find? (fun u => u.ftype == f.ftype && u.filename == f.filename) with
       | some r => { r with content := f.content, updatedAt := f.updatedAt }
       | none => f] ∧
    ((fileUpsert l f).map (fun u => (u.ftype, u.filename))).Nodup := by
  by_cases hany : l.any (fun u => u.ftype == f.ftype && u.filename == f.filename) = true
  · obtain ⟨r, hr, hkey⟩ := List.any_eq_true.1 hany
    rw [Bool.and_eq_true, beq_iff_eq, beq_iff_eq] at hkey
    have hfind : l.find? (fun u => u.ftype == f.ftype && u.filename == f.filename) =
        some r := by
      refine find?_eq_some_of_unique hr (by simp [hkey.1, hkey.2]) ?_
      intro b hb hpb
      rw [Bool.and_eq_true, beq_iff_eq, beq_iff_eq] at hpb
      exact map_key_unique hnd hb hr (by rw [hpb.1, hpb.2, hkey.1, hkey.2])
    have hmapkeys : ∀ u : PlanFile,
        ((if u.ftype == f.ftype && u.filename == f.filename then
            { u with content := f.content, updatedAt := f.updatedAt }
          else u) : PlanFile).ftype = u.ftype ∧
        ((if u.ftype == f.ftype && u.filename == f.filename then
            { u with content := f.content, updatedAt := f.updatedAt }
          else u) : PlanFile).filename = u.filename := by
      intro u
      by_cases hu : (u.ftype == f.ftype && u.filename == f.filename) = true
      · rw [if_pos hu]; exact ⟨rfl, rfl⟩
      · rw [if_neg hu]; exact ⟨rfl, rfl⟩
    have hsingle : l.filter (fun u => u.ftype == f.ftype && u.filename == f.filename) =
        [r] := by
      have hs := filter_fileKey_singleton (l := l) (r := r) hnd hr
      rwa [hkey.1, hkey.2] at hs
    rw [fileUpsert, if_pos hany, hfind]
    constructor
    · have hfm : (l.map (fun u =>
          if u.ftype == f.ftype && u.filename == f.filename then
            { u with content := f.content, updatedAt := f.updatedAt }
          else u)).filter (fun u => u.ftype == f.ftype && u.filename == f.filename) =
          (l.filter (fun u => u.ftype == f.ftype && u.filename == f.filename)).map
            (fun u =>
              if u.ftype == f.ftype && u.filename == f.filename then
                { u with content := f.content, updatedAt := f.updatedAt }
              else u) := by
        rw [List.filter_map]
        congr 1
        refine List.filter_congr (fun u _ => ?_)
        simp only [Function.comp]
        rw [(hmapkeys u).1, (hmapkeys u).2]
      rw [hfm, hsingle, List.map_cons, List.map_nil,
        if_pos (show (r.ftype == f.ftype && r.filename == f.filename) = true by
          simp [hkey.1, hkey.2])]
    · rw [List.map_map]
      have : ((fun u : PlanFile => (u.ftype, u.filename)) ∘ (fun u =>
          if u.ftype == f.ftype && u.filename == f.filename then
            { u with content := f.content, updatedAt := f.updatedAt }
          else u)) = fun u : PlanFile => (u.ftype, u.filename) := by
        funext u
        simp only [Function.comp]
        rw [(hmapkeys u).1, (hmapkeys u).2]
      rw [this]
      exact hnd
  · have hfind : l.find? (fun u => u.ftype == f.ftype && u.filename == f.filename) =
        none := by
      rw [List.find?_eq_none]
      intro x hx hpx
      exact hany (List.any_eq_true.2 ⟨x, hx, hpx⟩)
    rw [fileUpsert, if_neg hany, hfind]
    constructor
    · rw [List.filter_append, filter_fileKey_nil, List.nil_append,
        List.filter_cons_of_pos (by simp), List.filter_nil]
      intro u hu hcon
      exact hany (List.any_eq_true.2 ⟨u, hu, by simp [hcon.1, hcon.2]⟩)
    · rw [List.map_append, List.map_cons, List.map_nil]
      rw [List.nodup_append]
      refine ⟨hnd, List.nodup_singleton _, ?_⟩
      intro a ha hb
      rw [List.mem_singleton] at hb
      rcases List.mem_map.1 ha with ⟨u, hu, hkeyu⟩
      rw [hb] at hkeyu
      have : (u.ftype == f.ftype && u.filename == f.filename) = true := by
        have h1 : u.ftype = f.ftype := congrArg Prod.fst hkeyu
        have h2 : u.filename = f.filename := congrArg Prod.snd hkeyu
        simp [h1, h2]
      exact hany (List.any_eq_true.2 ⟨u, hu, this⟩)

/-- C3: `saveFile` is an upsert keyed by `(type, filename)`: with a row of
that key present, the stored content and `updated_at` are replaced by the
caller-supplied values while the row's original `created_at` is untouched;
saving twice with the same values leaves `getFile` returning exactly that
content, with a single entry for the key. -/
theorem saveFile_upsert_spec (db : DB) (f : PlanFile)
    (h1 : db.plans.isEmpty = false)
    (hnd : (db.files.map (fun u => (u.ftype, u.filename))).Nodup) :
    (db.saveFile f).2.success = true ∧
    (∀ r ∈ db.files, r.ftype = f.ftype → r.filename = f.filename →
      (db.saveFile f).1.getFile f.ftype f.filename =
        SResult.okSome { r with content := f.content, updatedAt := f.updatedAt } ∧
      ((db.saveFile f).1.files.filter (fun u =>
          u.ftype == f.ftype && u.filename == f.filename)).length = 1) ∧
    (∃ row : PlanFile,
      ((db.saveFile f).1.saveFile f).1.getFile f.ftype f.filename =
        SResult.okSome row ∧ row.content = f.content ∧
      row.updatedAt = f.updatedAt ∧
      (((db.saveFile f).1.saveFile f).1.files.filter (fun u =>
          u.ftype == f.ftype && u.filename == f.filename)).length = 1) := by
  have hsave : db.saveFile f = ({ db with files := fileUpsert db.files f }, okU) := by
    rw [DB.saveFile, if_neg (by simp [h1])]
    rfl
  obtain ⟨hfl1, hnd1⟩ := fileUpsert_filter (l := db.files) (f := f) hnd
  have hsave2 : ({ db with files := fileUpsert db.files f } : DB).saveFile f =
      ({ db with files := fileUpsert (fileUpsert db.files f) f }, okU) := by
    rw [DB.saveFile, if_neg (by simp [h1])]
    rfl
  obtain ⟨hfl2, _⟩ := fileUpsert_filter (l := fileUpsert db.files f) (f := f) hnd1
  have hsave12 : (db.saveFile f).1.saveFile f =
      ({ db with files := fileUpsert (fileUpsert db.files f) f }, okU) := by
    rw [hsave]
    exact hsave2
  refine ⟨by rw [hsave]; rfl, ?_, ?_⟩
  · intro r hr hft hfn
    have hfind : db.files.find? (fun u =>
        u.ftype == f.ftype && u.filename == f.filename) = some r := by
      refine find?_eq_some_of_unique hr (by simp [hft, hfn]) ?_
      intro b hb hpb
      rw [Bool.and_eq_true, beq_iff_eq, beq_iff_eq] at hpb
      exact map_key_unique hnd hb hr (by rw [hpb.1, hpb.2, hft, hfn])
    have hflr : (fileUpsert db.files f).filter (fun u =>
        u.ftype == f.ftype && u.filename == f.filename) =
        [{ r with content := f.content, updatedAt := f.updatedAt }] := by
      rw [hfl1, hfind]
    constructor
    · rw [hsave]
      show DB.getFile { db with files := fileUpsert db.files f }
        f.ftype f.filename = _
      rw [DB.getFile, if_neg (by simp [h1]), find?_eq_head_filter, hflr]
      rfl
    · rw [hsave]
      show ((fileUpsert db.files f).filter (fun u =>
        u.ftype == f.ftype && u.filename == f.filename)).length = 1
      rw [hflr]
      rfl
  · have hfind1 : (fileUpsert db.files f).find? (fun u =>
        u.ftype == f.ftype && u.filename == f.filename) =
        some (match db.files.find? (fun u =>
            u.ftype == f.ftype && u.filename == f.filename) with
          | some r0 => { r0 with content := f.content, updatedAt := f.updatedAt }
          | none => f) := by
      rw [find?_eq_head_filter, hfl1]
      rfl
    have hflr2 : (fileUpsert (fileUpsert db.files f) f).filter (fun u =>
        u.ftype == f.ftype && u.filename == f.filename) =
        [{ (match db.files.find? (fun u =>
              u.ftype == f.ftype && u.filename == f.filename) with
            | some r0 => { r0 with content := f.content, updatedAt := f.updatedAt }
            | none => f) with content := f.content, updatedAt := f.updatedAt }] := by
      rw [hfl2, hfind1]
    refine ⟨{ (match db.files.find? (fun u =>
          u.ftype == f.ftype && u.filename == f.filename) with
        | some r0 => { r0 with content := f.content, updatedAt := f.updatedAt }
        | none => f) with content := f.content, updatedAt := f.updatedAt },
      ?_, rfl, rfl, ?_⟩
    · rw [hsave12]
      show DB.getFile { db with files := fileUpsert (fileUpsert db.files f) f }
        f.ftype f.filename = _
      rw [DB.getFile, if_neg (by simp [h1]), find?_eq_head_filter, hflr2]
      rfl
    · rw [hsave12]
      show ((fileUpsert (fileUpsert db.files f) f).filter (fun u =>
        u.ftype == f.ftype && u.filename == f.filename)).length = 1
      rw [hflr2]
      rfl

/-- Witness for C3: a store holding one file row of the saved key. -/
theorem saveFile_upsert_spec_witness :
    ((exDbFile.saveFile exFileNew).2.success = true ∧
      (exDbFile.saveFile exFileNew).1.getFile "idea" "IDEA.md" =
        SResult.okSome
          { ftype := "idea", filename := "IDEA.md", content := "# updated",
            createdAt := "2026-01-01T00:00:00.000Z",
            updatedAt := "2026-01-05T00:00:00.000Z" }) ∧
    (∃ row : PlanFile,
      ((exDbFile.saveFile exFileNew).1.saveFile exFileNew).1.getFile
          "idea" "IDEA.md" = SResult.okSome row ∧
        row.content = "# updated" ∧
        (((exDbFile.saveFile exFileNew).1.saveFile exFileNew).1.files.filter
          (fun u => u.ftype == "idea" && u.filename == "IDEA.md")).length = 1) := by
  have h := saveFile_upsert_spec exDbFile exFileNew (by decide) (by decide)
  have hr := h.2.1 exFileOrig (by decide) (by decide) (by decide)
  obtain ⟨row, hrow1, hrow2, hrow3, hrow4⟩ := h.2.2
  exact ⟨⟨h.1, hr.1⟩, row, hrow1, hrow2, hrow4⟩

/-! ## C2: atomicity of restoreCheckpoint -/

theorem execWrites_none (db : DB) (ws : List RestoreWrite) (idx : Nat) :
    execWrites db ws none idx = some (ws.foldl applyRestoreWrite db) := by
  induction ws generalizing db idx with
  | nil => rfl
  | cons w rest ih =>
      rw [execWrites, if_neg (by simp)]
      rw [ih, List.foldl_cons]

theorem execWrites_some {db db1 : DB} {ws : List RestoreWrite}
    {failAt : Option Nat} {idx : Nat}
    (h : execWrites db ws failAt idx = some db1) :
    db1 = ws.foldl applyRestoreWrite db := by
  induction ws generalizing db idx with
  | nil =>
      rw [execWrites] at h
      exact (Option.some.injEq _ _ ▸ h).symm
  | cons w rest ih =>
      rw [execWrites] at h
      by_cases hf : failAt = some idx
      · rw [if_pos hf] at h; cases h
      · rw [if_neg hf] at h
        rw [List.foldl_cons]
        exact ih h

/-- C2: `restoreCheckpoint` on an existing checkpoint is all-or-nothing:
its metadata update, per-step status/timestamp overwrites and per-file
upserts run inside one transaction, so a failure at any statement leaves
the store exactly as it was, a success applies all the statements together,
and with no failure injected the call succeeds. -/
theorem restoreCheckpoint_atomic (db : DB) (name now : String)
    (failAt : Option Nat) (cp : Checkpoint)
    (hcp : db.getCheckpoint name = SResult.okSome cp) :
    ((db.restoreCheckpoint name now failAt).2.success = false →
      (db.restoreCheckpoint name now failAt).1 = db) ∧
    ((db.restoreCheckpoint name now failAt).2.success = true →
      (db.restoreCheckpoint name now failAt).1 =
        (restoreWrites cp.snapshot now).foldl applyRestoreWrite db) ∧
    (failAt = none → (db.restoreCheckpoint name now failAt).2.success = true) := by
  have hres : db.restoreCheckpoint name now failAt =
      (match runTransaction db (restoreWrites cp.snapshot now) failAt with
       | (db1, true) => (db1, { success := true, data := none, error := none })
       | (db1, false) => (db1, SResult.fail "transaction failed")) := by
    rw [DB.restoreCheckpoint]
    rw [hcp]
    rfl
  rcases hrt : runTransaction db (restoreWrites cp.snapshot now) failAt with ⟨db1, b⟩
  cases b with
  | true =>
      have hdb1 : db1 = (restoreWrites cp.snapshot now).foldl applyRestoreWrite db := by
        rw [runTransaction] at hrt
        cases hex : execWrites db (restoreWrites cp.snapshot now) failAt 0 with
        | none =>
            rw [hex] at hrt
            exact Bool.noConfusion (congrArg Prod.snd hrt)
        | some db2 =>
            rw [hex] at hrt
            have hfst : db2 = db1 := congrArg Prod.fst hrt
            rw [← hfst]
            exact execWrites_some hex
      rw [hres, hrt]
      exact ⟨fun hcontra => Bool.noConfusion hcontra, fun _ => hdb1, fun _ => rfl⟩
  | false =>
      have hdb1 : db1 = db := by
        rw [runTransaction] at hrt
        cases hex : execWrites db (restoreWrites cp.snapshot now) failAt 0 with
        | none =>
            rw [hex] at hrt
            exact (congrArg Prod.fst hrt).symm
        | some db2 =>
            rw [hex] at hrt
            exact Bool.noConfusion (congrArg Prod.snd hrt)
      have hnone : failAt ≠ none := by
        intro hn
        rw [hn, runTransaction, execWrites_none] at hrt
        exact Bool.noConfusion (congrArg Prod.snd hrt)
      rw [hres, hrt]
      exact ⟨fun _ => hdb1, fun hcontra => Bool.noConfusion hcontra,
        fun hn => absurd hn hnone⟩

/-- Witness for C2: a concrete store and checkpoint, with a failure
injected at the first statement and with no failure. -/
theorem restoreCheckpoint_atomic_witness :
    ((exDbCp.restoreCheckpoint "cp1" "2026-04-01T00:00:00.000Z" (some 0)).2.success = false →
      (exDbCp.restoreCheckpoint "cp1" "2026-04-01T00:00:00.000Z" (some 0)).1 = exDbCp) ∧
    ((exDbCp.restoreCheckpoint "cp1" "2026-04-01T00:00:00.000Z" none).2.success = true →
      (exDbCp.restoreCheckpoint "cp1" "2026-04-01T00:00:00.000Z" none).1 =
        (restoreWrites exCp.snapshot "2026-04-01T00:00:00.000Z").foldl
          applyRestoreWrite exDbCp) ∧
    (exDbCp.restoreCheckpoint "cp1" "2026-04-01T00:00:00.000Z" none).2.success = true := by
  have h1 := restoreCheckpoint_atomic exDbCp "cp1" "2026-04-01T00:00:00.000Z"
    (some 0) exCp (by decide)
  have h2 := restoreCheckpoint_atomic exDbCp "cp1" "2026-04-01T00:00:00.000Z"
    none exCp (by decide)
  exact ⟨h1.1, h2.2.1, h2.2.2 rfl⟩

/-! ## C6: search scoring -/

/-- C6 counterexample: in `"aaa"` the query `"aa"` occurs at two starting
positions, but the scan advances past each found occurrence, so
`calculateScore` counts 1 and scores 1/10 instead of 2/10. -/
theorem calculateScore_occurrence_counterexample :
    calculateScore "aaa" "aa" ≠
      min 1 ((claimOccurrenceCount (lowerStr "aaa") (lowerStr "aa") : ℚ) / 10) := by
  have h1 : occCount (lowerStr "aaa") (lowerStr "aa") = 1 := by decide
  have h2 : claimOccurrenceCount (lowerStr "aaa") (lowerStr "aa") = 2 := by decide
  rw [calculateScore, h1, h2, min_eq_right (by norm_num), min_eq_right (by norm_num)]
  norm_num

/-- C6 amended: a hit's score is `min(1, n/10)` where `n` is the number of
non-overlapping case-insensitive occurrences found by the left-to-right
scan (not the number of all match positions); one occurrence scores below
five, ten or more occurrences all score exactly 1, and the pooled search
results are sorted by score descending. -/
theorem search_score_spec :
    (∀ c q : String, calculateScore c q =
        min 1 ((occCount (lowerStr c) (lowerStr q) : ℚ) / 10)) ∧
    (∀ c c2 q : String, occCount (lowerStr c) (lowerStr q) = 1 →
        occCount (lowerStr c2) (lowerStr q) = 5 →
        calculateScore c q < calculateScore c2 q) ∧
    (∀ c q : String, 10 ≤ occCount (lowerStr c) (lowerStr q) →
        calculateScore c q = 1) ∧
    (∀ (db : DB) (q : String) (l : List SearchResult),
        (db.search q).data = some l →
        l.Pairwise (fun a b => b.score ≤ a.score)) := by
  refine ⟨fun c q => rfl, ?_, ?_, ?_⟩
  · intro c c2 q h1 h5
    rw [calculateScore, calculateScore, h1, h5]
    norm_num
  · intro c q h10
    rw [calculateScore, min_eq_left]
    rw [le_div_iff₀ (by norm_num : (0 : ℚ) < 10)]
    norm_num
    exact_mod_cast h10
  · intro db q l hl
    rw [DB.search] at hl
    by_cases hp : db.plans.isEmpty = true
    · rw [if_pos hp] at hl
      simp [SResult.fail] at hl
    · rw [if_neg hp] at hl
      simp only [SResult.okSome, Option.some.injEq] at hl
      subst hl
      have hs := @sortBy_pairwise SearchResult
        (fun a b : SearchResult => decide (b.score ≤ a.score))
        (fun a b => by
          rcases le_total b.score a.score with h | h
          · left; exact decide_eq_true h
          · right; exact decide_eq_true h)
        (fun a b c hab hbc => by
          rw [decide_eq_true_eq] at hab hbc
          exact decide_eq_true (le_trans hbc hab))
        ((db.steps.filter (fun r =>
            likeContains r.title q || likeContains r.content q)).map (fun r =>
          { rtype := "step", id := toString r.number,
            snippet := extractSnippet r.content q,
            score := calculateScore r.content q }) ++
        (db.files.filter (fun r => likeContains r.content q)).map (fun r =>
          { rtype := "file", id := r.filename,
            snippet := extractSnippet r.content q,
            score := calculateScore r.content q }) ++
        (db.evidence.filter (fun r =>
            likeContains r.description q ||
              (match r.content with
               | some c => likeContains c q
               | none => false))).map (fun r =>
          { rtype := "evidence", id := r.id,
            snippet := extractSnippet (evidenceSearchText r) q,
            score := calculateScore (evidenceSearchText r) q }))
      exact hs.imp (fun h => of_decide_eq_true h)

/-- Witness for C6's amended statement at concrete contents and a concrete
store. -/
theorem search_score_spec_witness :
    calculateScore "ha" "ha" < calculateScore "hahahahaha" "ha" ∧
    calculateScore "aaaaaaaaaaaa" "a" = 1 ∧
    (∃ l, (exDbFile.search "original").data = some l ∧
      l.Pairwise (fun a b => b.score ≤ a.score)) := by
  refine ⟨search_score_spec.2.1 "ha" "hahahahaha" "ha" (by decide) (by decide),
    search_score_spec.2.2.1 "aaaaaaaaaaaa" "a" (by decide), ?_⟩
  exact ⟨_, rfl, search_score_spec.2.2.2 exDbFile "original" _ rfl⟩

/-! ## C8: validator error policy -/

theorem validate_components (s t : ProviderView) :
    (validate s t).errors =
      validateMetadata s.metadata t.metadata ++
        (validateSteps s.steps t.steps).1 ++ (validateFiles s.files t.files).1 ++
        (validateEvidence s.evidence t.evidence).1 ++
        (validateFeedback s.feedback t.feedback).1 ∧
    (validate s t).warnings = (validateTimeline s.timeline t.timeline).1 ∧
    (validate s t).valid = (validate s t).errors.isEmpty := ⟨rfl, rfl, rfl⟩

/-- C8: `validate` is valid exactly when its error list is empty; the error
list is assembled from the metadata, step, file, evidence and feedback
checks only, so an unmatched source timeline event contributes just its
free-text warning; and a source step, file, evidence record or feedback
record with no match in the target always contributes its hard error. -/
theorem validate_error_policy (s t : ProviderView) :
    ((validate s t).valid = true ↔ (validate s t).errors = []) ∧
    ((validate s t).errors =
      validateMetadata s.metadata t.metadata ++
        (validateSteps s.steps t.steps).1 ++ (validateFiles s.files t.files).1 ++
        (validateEvidence s.evidence t.evidence).1 ++
        (validateFeedback s.feedback t.feedback).1) ∧
    (∀ (E : List TimelineEvent) (e0 : TimelineEvent),
      s.timeline = SResult.okSome E → e0 ∈ E →
      (t.timeline.data.getD []).find? (fun u =>
          u.etype == e0.etype && u.timestamp == e0.timestamp) = none →
      timelineWarning e0 ∈ (validate s t).warnings) ∧
    (∀ (S : List PlanStep) (st0 : PlanStep),
      s.steps = SResult.okSome S → st0 ∈ S →
      (t.steps.data.getD []).find? (fun u => u.number == st0.number) = none →
      missingStepError st0 ∈ (validate s t).errors) ∧
    (∀ (F : List PlanFile) (f0 : PlanFile),
      s.files = SResult.okSome F → f0 ∈ F →
      (t.files.data.getD []).find? (fun u =>
          u.ftype == f0.ftype && u.filename == f0.filename) = none →
      missingFileError f0 ∈ (validate s t).errors) ∧
    (∀ (V : List EvidenceRecord) (v0 : EvidenceRecord),
      s.evidence = SResult.okSome V → v0 ∈ V →
      (t.evidence.data.getD []).find? (fun u =>
          u.description == v0.description) = none →
      missingEvidenceError v0 ∈ (validate s t).errors) ∧
    (∀ (B : List FeedbackRecord) (b0 : FeedbackRecord),
      s.feedback = SResult.okSome B → b0 ∈ B →
      (t.feedback.data.getD []).find? (fun u => u.content == b0.content) = none →
      missingFeedbackError b0 ∈ (validate s t).errors) := by
  obtain ⟨herr, hwarn, hvalid⟩ := validate_components s t
  refine ⟨?_, herr, ?_, ?_, ?_, ?_, ?_⟩
  · rw [hvalid, List.isEmpty_iff]
  · intro E e0 hE he0 hfind
    rw [hwarn, hE]
    have : validateTimeline (SResult.okSome E) t.timeline =
        (E.flatMap (fun e =>
          if ((t.timeline.data.getD []).find? (fun u =>
              u.etype == e.etype && u.timestamp == e.timestamp)).isSome
          then [] else [timelineWarning e]), E.length) := rfl
    rw [this]
    refine List.mem_flatMap.2 ⟨e0, he0, ?_⟩
    rw [hfind]
    simp
  · intro S st0 hS hst0 hfind
    rw [herr, hS]
    have : (validateSteps (SResult.okSome S) t.steps).1 =
        S.flatMap (fun st =>
          match (t.steps.data.getD []).find? (fun u => u.number == st.number) with
          | none => [missingStepError st]
          | some tu =>
              (if st.title = tu.title then [] else
                [{ etype := "content_mismatch",
                   path := "steps[" ++ toString st.number ++ "].title",
                   message := "Step " ++ toString st.number ++ " title mismatch" }]) ++
              (if st.status = tu.status then [] else
                [{ etype := "content_mismatch",
                   path := "steps[" ++ toString st.number ++ "].status",
                   message := "Step " ++ toString st.number ++ " status mismatch" }]) ++
              (if st.content.trim = tu.content.trim then [] else
                [{ etype := "content_mismatch",
                   path := "steps[" ++ toString st.number ++ "].content",
                   message := "Step " ++ toString st.number ++ " content mismatch" }])) ++
        (t.steps.data.getD []).flatMap (fun tu =>
          match S.find? (fun u => u.number == tu.number) with
          | none =>
              [{ etype := "content_mismatch",
                 path := "steps[" ++ toString tu.number ++ "]",
                 message := "Unexpected step " ++ toString tu.number ++ " in target" }]
          | some _ => []) := rfl
    have hmem : missingStepError st0 ∈ (validateSteps (SResult.okSome S) t.steps).1 := by
      rw [this]
      refine List.mem_append_left _ (List.mem_flatMap.2 ⟨st0, hst0, ?_⟩)
      rw [hfind]
      simp
    exact List.mem_append_left _ (List.mem_append_left _
      (List.mem_append_left _ (List.mem_append_right _ hmem)))
  · intro F f0 hF hf0 hfind
    rw [herr, hF]
    have : (validateFiles (SResult.okSome F) t.files).1 =
        F.flatMap (fun sf =>
          match (t.files.data.getD []).find? (fun u =>
              u.ftype == sf.ftype && u.filename == sf.filename) with
          | none => [missingFileError sf]
          | some tf =>
              if sf.content.trim = tf.content.trim then [] else
                [{ etype := "content_mismatch",
                   path := "files[" ++ sf.ftype ++ "/" ++ sf.filename ++ "].content",
                   message := "File " ++ sf.filename ++ " content mismatch" }]) := rfl
    have hmem : missingFileError f0 ∈ (validateFiles (SResult.okSome F) t.files).1 := by
      rw [this]
      refine List.mem_flatMap.2 ⟨f0, hf0, ?_⟩
      rw [hfind]
      simp
    exact List.mem_append_left _
      (List.mem_append_left _ (List.mem_append_right _ hmem))
  · intro V v0 hV hv0 hfind
    rw [herr, hV]
    have : (validateEvidence (SResult.okSome V) t.evidence).1 =
        V.flatMap (fun se =>
          if ((t.evidence.data.getD []).find? (fun u =>
              u.description == se.description)).isSome then []
          else [missingEvidenceError se]) := rfl
    have hmem : missingEvidenceError v0 ∈
        (validateEvidence (SResult.okSome V) t.evidence).1 := by
      rw [this]
      refine List.mem_flatMap.2 ⟨v0, hv0, ?_⟩
      rw [hfind]
      simp
    exact List.mem_append_left _ (List.mem_append_right _ hmem)
  · intro B b0 hB hb0 hfind
    rw [herr, hB]
    have : (validateFeedback (SResult.okSome B) t.feedback).1 =
        B.flatMap (fun sf =>
          if ((t.feedback.data.getD []).find? (fun u =>
              u.content == sf.content)).isSome then []
          else [missingFeedbackError sf]) := rfl
    have hmem : missingFeedbackError b0 ∈
        (validateFeedback (SResult.okSome B) t.feedback).1 := by
      rw [this]
      refine List.mem_flatMap.2 ⟨b0, hb0, ?_⟩
      rw [hfind]
      simp
    exact List.mem_append_right _ hmem

/-- Witness for C8: a one-of-each source against an empty-collection
target. -/
theorem validate_error_policy_witness :
    ((validate exSrcView exTgtEmptyView).valid = true ↔
      (validate exSrcView exTgtEmptyView).errors = []) ∧
    timelineWarning exEvent1 ∈ (validate exSrcView exTgtEmptyView).warnings ∧
    missingStepError exStep1 ∈ (validate exSrcView exTgtEmptyView).errors ∧
    missingFileError exFileOrig ∈ (validate exSrcView exTgtEmptyView).errors ∧
    missingEvidenceError exEvid1 ∈ (validate exSrcView exTgtEmptyView).errors ∧
    missingFeedbackError exFb1 ∈ (validate exSrcView exTgtEmptyView).errors := by
  have h := validate_error_policy exSrcView exTgtEmptyView
  exact ⟨h.1,
    h.2.2.1 [exEvent1] exEvent1 rfl (List.mem_singleton.2 rfl) rfl,
    h.2.2.2.1 [exStep1] exStep1 rfl (List.mem_singleton.2 rfl) rfl,
    h.2.2.2.2.1 [exFileOrig] exFileOrig rfl (List.mem_singleton.2 rfl) rfl,
    h.2.2.2.2.2.1 [exEvid1] exEvid1 rfl (List.mem_singleton.2 rfl) rfl,
    h.2.2.2.2.2.2 [exFb1] exFb1 rfl (List.mem_singleton.2 rfl) rfl⟩

/-! ## C10: unreadable source collections are skipped -/

/-- C10: for each non-metadata category, a failed or data-less source bulk
read makes the category check record no errors or warnings and report zero
items compared; consequently, when all of steps, files, evidence and
feedback are unreadable, `validate` still returns valid = true as soon as
the metadata check passes. -/
theorem validate_unreadable_source_spec (s t : ProviderView) :
    ((s.steps.success = false ∨ s.steps.data = none) →
      validateSteps s.steps t.steps = ([], 0)) ∧
    ((s.files.success = false ∨ s.files.data = none) →
      validateFiles s.files t.files = ([], 0)) ∧
    ((s.timeline.success = false ∨ s.timeline.data = none) →
      validateTimeline s.timeline t.timeline = ([], 0)) ∧
    ((s.evidence.success = false ∨ s.evidence.data = none) →
      validateEvidence s.evidence t.evidence = ([], 0)) ∧
    ((s.feedback.success = false ∨ s.feedback.data = none) →
      validateFeedback s.feedback t.feedback = ([], 0)) ∧
    ((s.steps.success = false ∨ s.steps.data = none) →
      (s.files.success = false ∨ s.files.data = none) →
      (s.evidence.success = false ∨ s.evidence.data = none) →
      (s.feedback.success = false ∨ s.feedback.data = none) →
      validateMetadata s.metadata t.metadata = [] →
      (validate s t).valid = true) := by
  have hstep : (s.steps.success = false ∨ s.steps.data = none) →
      validateSteps s.steps t.steps = ([], 0) := by
    intro h
    rcases hS : s.steps with ⟨succ, dat, err⟩
    rw [hS] at h
    cases succ with
    | false => cases dat <;> rfl
    | true =>
        cases dat with
        | none => rfl
        | some l => rcases h with h | h <;> simp at h
  have hfile : (s.files.success = false ∨ s.files.data = none) →
      validateFiles s.files t.files = ([], 0) := by
    intro h
    rcases hS : s.files with ⟨succ, dat, err⟩
    rw [hS] at h
    cases succ with
    | false => cases dat <;> rfl
    | true =>
        cases dat with
        | none => rfl
        | some l => rcases h with h | h <;> simp at h
  have htime : (s.timeline.success = false ∨ s.timeline.data = none) →
      validateTimeline s.timeline t.timeline = ([], 0) := by
    intro h
    rcases hS : s.timeline with ⟨succ, dat, err⟩
    rw [hS] at h
    cases succ with
    | false => cases dat <;> rfl
    | true =>
        cases dat with
        | none => rfl
        | some l => rcases h with h | h <;> simp at h
  have hevid : (s.evidence.success = false ∨ s.evidence.data = none) →
      validateEvidence s.evidence t.evidence = ([], 0) := by
    intro h
    rcases hS : s.evidence with ⟨succ, dat, err⟩
    rw [hS] at h
    cases succ with
    | false => cases dat <;> rfl
    | true =>
        cases dat with
        | none => rfl
        | some l => rcases h with h | h <;> simp at h
  have hfb : (s.feedback.success = false ∨ s.feedback.data = none) →
      validateFeedback s.feedback t.feedback = ([], 0) := by
    intro h
    rcases hS : s.feedback with ⟨succ, dat, err⟩
    rw [hS] at h
    cases succ with
    | false => cases dat <;> rfl
    | true =>
        cases dat with
        | none => rfl
        | some l => rcases h with h | h <;> simp at h
  refine ⟨hstep, hfile, htime, hevid, hfb, ?_⟩
  intro h1 h2 h3 h4 hmd
  obtain ⟨herr, hwarn, hvalid⟩ := validate_components s t
  rw [hvalid, herr, hmd, hstep h1, hfile h2, hevid h3, hfb h4]
  rfl

/-- Witness for C10: a source whose five bulk reads fail against a target
with matching metadata still validates as valid. -/
theorem validate_unreadable_source_spec_witness :
    validateSteps exSrcUnreadableView.steps exTgtEmptyView.steps = ([], 0) ∧
    validateFiles exSrcUnreadableView.files exTgtEmptyView.files = ([], 0) ∧
    validateTimeline exSrcUnreadableView.timeline exTgtEmptyView.timeline = ([], 0) ∧
    validateEvidence exSrcUnreadableView.evidence exTgtEmptyView.evidence = ([], 0) ∧
    validateFeedback exSrcUnreadableView.feedback exTgtEmptyView.feedback = ([], 0) ∧
    (validate exSrcUnreadableView exTgtEmptyView).valid = true := by
  have h := validate_unreadable_source_spec exSrcUnreadableView exTgtEmptyView
  exact ⟨h.1 (Or.inl rfl), h.2.1 (Or.inl rfl), h.2.2.1 (Or.inl rfl),
    h.2.2.2.1 (Or.inl rfl), h.2.2.2.2.1 (Or.inl rfl),
    h.2.2.2.2.2 (Or.inl rfl) (Or.inl rfl) (Or.inl rfl) (Or.inl rfl) (by decide)⟩

/-! ## C1: migration round trip

Fold lemmas describing the store after each copy phase, then emptiness of
every validator error category on the copied data. -/

theorem foldl_addStep (S : List PlanStep) (db : DB)
    (hp : db.plans.isEmpty = false)
    (hnd : (S.map (fun s => s.number)).Nodup)
    (hfresh : ∀ s ∈ S, s.number ∉ db.steps.map (fun r => r.number)) :
    S.foldl (fun d s => (d.addStep s).1) db =
      { db with steps := db.steps ++ S.map stepRowConv } := by
  induction S generalizing db with
  | nil => simp
  | cons s rest ih =>
      rw [List.map_cons, List.nodup_cons] at hnd
      have hnos : db.steps.any (fun r => r.number == s.number) = false := by
        rw [← Bool.not_eq_true]
        intro hc
        rcases List.any_eq_true.1 hc with ⟨r, hr, hb⟩
        rw [beq_iff_eq] at hb
        exact hfresh s (List.mem_cons_self s rest)
          (hb ▸ List.mem_map_of_mem (fun r : PlanStep => r.number) hr)
      have hadd : (db.addStep s).1 = { db with steps := db.steps ++ [stepRowConv s] } := by
        rw [DB.addStep, if_neg (by simp [hp]), if_neg (by simp [hnos])]
      rw [List.foldl_cons, hadd]
      rw [ih { db with steps := db.steps ++ [stepRowConv s] } hp hnd.2 ?fresh2]
      case fresh2 =>
        intro x hx
        rw [List.map_append]
        intro hmem
        rcases List.mem_append.1 hmem with hm | hm
        · exact hfresh x (List.mem_cons_of_mem s hx) hm
        · have hxs : x.number = s.number := by
            simpa [stepRowConv] using hm
          exact hnd.1 (hxs ▸ List.mem_map_of_mem (fun q : PlanStep => q.number) hx)
      rw [List.append_assoc]
      rfl

theorem foldl_saveFile (F : List PlanFile) (db : DB)
    (hp : db.plans.isEmpty = false)
    (hnd : (F.map (fun f => (f.ftype, f.filename))).Nodup)
    (hfresh : ∀ f ∈ F, (f.ftype, f.filename) ∉
      db.files.map (fun r => (r.ftype, r.filename))) :
    F.foldl (fun d f => (d.saveFile f).1) db =
      { db with files := db.files ++ F } := by
  induction F generalizing db with
  | nil => simp
  | cons f rest ih =>
      rw [List.map_cons, List.nodup_cons] at hnd
      have hnof : db.files.any (fun r => r.ftype == f.ftype && r.filename == f.filename) =
          false := by
        rw [← Bool.not_eq_true]
        intro hc
        rcases List.any_eq_true.1 hc with ⟨r, hr, hb⟩
        rw [Bool.and_eq_true, beq_iff_eq, beq_iff_eq] at hb
        refine hfresh f (List.mem_cons_self f rest) ?_
        have : (f.ftype, f.filename) = (r.ftype, r.filename) := by
          rw [hb.1, hb.2]
        exact this ▸ List.mem_map_of_mem (fun r : PlanFile => (r.ftype, r.filename)) hr
      have hsf : (db.saveFile f).1 = { db with files := db.files ++ [f] } := by
        rw [DB.saveFile, if_neg (by simp [hp])]
        show ({ db with files := fileUpsert db.files f }, okU).1 = _
        rw [fileUpsert, if_neg (by simp [hnof])]
      rw [List.foldl_cons, hsf]
      rw [ih { db with files := db.files ++ [f] } hp hnd.2 ?fresh2]
      case fresh2 =>
        intro x hx
        rw [List.map_append]
        intro hmem
        rcases List.mem_append.1 hmem with hm | hm
        · exact hfresh x (List.mem_cons_of_mem f hx) hm
        · have hxf : (x.ftype, x.filename) = (f.ftype, f.filename) := by
            simpa using hm
          exact hnd.1 (hxf ▸
            List.mem_map_of_mem (fun q : PlanFile => (q.ftype, q.filename)) hx)
      rw [List.append_assoc]
      rfl

theorem foldl_addTimelineEvent (E : List TimelineEvent) (db : DB)
    (hp : db.plans.isEmpty = false)
    (hnd : (E.map (fun e => e.id)).Nodup)
    (hid : ∀ e ∈ E, e.id ≠ "")
    (hfresh : ∀ e ∈ E, e.id ∉ db.events.map (fun r => r.id)) :
    E.foldl (fun d e => (d.addTimelineEvent e).1) db =
      { db with events := db.events ++ E } := by
  induction E generalizing db with
  | nil => simp
  | cons e rest ih =>
      rw [List.map_cons, List.nodup_cons] at hnd
      have hide : ¬ e.id = "" := hid e (List.mem_cons_self e rest)
      have hnoe : db.events.any (fun r => r.id == e.id) = false := by
        rw [← Bool.not_eq_true]
        intro hc
        rcases List.any_eq_true.1 hc with ⟨r, hr, hb⟩
        rw [beq_iff_eq] at hb
        exact hfresh e (List.mem_cons_self e rest)
          (hb ▸ List.mem_map_of_mem (fun r : TimelineEvent => r.id) hr)
      have hadd : (db.addTimelineEvent e).1 = { db with events := db.events ++ [e] } := by
        rw [DB.addTimelineEvent, if_neg (by simp [hp])]
        simp only [if_neg hide]
        rw [if_neg (by simp [hnoe])]
      rw [List.foldl_cons, hadd]
      rw [ih { db with events := db.events ++ [e] } hp hnd.2
        (fun x hx => hid x (List.mem_cons_of_mem e hx)) ?fresh2]
      case fresh2 =>
        intro x hx
        rw [List.map_append]
        intro hmem
        rcases List.mem_append.1 hmem with hm | hm
        · exact hfresh x (List.mem_cons_of_mem e hx) hm
        · have hxe : x.id = e.id := by simpa using hm
          exact hnd.1 (hxe ▸ List.mem_map_of_mem (fun q : TimelineEvent => q.id) hx)
      rw [List.append_assoc]
      rfl

theorem foldl_addEvidence (V : List EvidenceRecord) (db : DB)
    (hp : db.plans.isEmpty = false)
    (hnd : (V.map (fun v => v.id)).Nodup)
    (hid : ∀ v ∈ V, v.id ≠ "")
    (hfresh : ∀ v ∈ V, v.id ∉ db.evidence.map (fun r => r.id)) :
    V.foldl (fun d v => (d.addEvidence v).1) db =
      { db with evidence := db.evidence ++ V.map evidenceWriteRow } := by
  induction V generalizing db with
  | nil => simp
  | cons v rest ih =>
      rw [List.map_cons, List.nodup_cons] at hnd
      have hidv : ¬ v.id = "" := hid v (List.mem_cons_self v rest)
      have hnov : db.evidence.any (fun r => r.id == v.id) = false := by
        rw [← Bool.not_eq_true]
        intro hc
        rcases List.any_eq_true.1 hc with ⟨r, hr, hb⟩
        rw [beq_iff_eq] at hb
        exact hfresh v (List.mem_cons_self v rest)
          (hb ▸ List.mem_map_of_mem (fun r : EvidenceRecord => r.id) hr)
      have hadd : (db.addEvidence v).1 =
          { db with evidence := db.evidence ++ [{ evidenceWriteRow v with id := v.id }] } := by
        rw [DB.addEvidence, if_neg (by simp [hp])]
        simp only [if_neg hidv]
        rw [if_neg (by simp [hnov])]
      have hidrow : ({ evidenceWriteRow v with id := v.id } : EvidenceRecord) =
          evidenceWriteRow v := by
        rw [evidenceWriteRow]
      rw [List.foldl_cons, hadd, hidrow]
      rw [ih { db with evidence := db.evidence ++ [evidenceWriteRow v] } hp hnd.2
        (fun x hx => hid x (List.mem_cons_of_mem v hx)) ?fresh2]
      case fresh2 =>
        intro x hx
        rw [List.map_append]
        intro hmem
        rcases List.mem_append.1 hmem with hm | hm
        · exact hfresh x (List.mem_cons_of_mem v hx) hm
        · have hxv : x.id = v.id := by simpa [evidenceWriteRow] using hm
          exact hnd.1 (hxv ▸ List.mem_map_of_mem (fun q : EvidenceRecord => q.id) hx)
      rw [List.append_assoc]
      rfl

theorem foldl_addFeedback (B : List FeedbackRecord) (db : DB)
    (hp : db.plans.isEmpty = false)
    (hnd : (B.map (fun b => b.id)).Nodup)
    (hid : ∀ b ∈ B, b.id ≠ "")
    (hfresh : ∀ b ∈ B, b.id ∉ db.feedback.map (fun r => r.id)) :
    B.foldl (fun d b => (d.addFeedback b).1) db =
      { db with feedback := db.feedback ++ B.map feedbackWriteRow } := by
  induction B generalizing db with
  | nil => simp
  | cons b rest ih =>
      rw [List.map_cons, List.nodup_cons] at hnd
      have hidb : ¬ b.id = "" := hid b (List.mem_cons_self b rest)
      have hnob : db.feedback.any (fun r => r.id == b.id) = false := by
        rw [← Bool.not_eq_true]
        intro hc
        rcases List.any_eq_true.1 hc with ⟨r, hr, hb⟩
        rw [beq_iff_eq] at hb
        exact hfresh b (List.mem_cons_self b rest)
          (hb ▸ List.mem_map_of_mem (fun r : FeedbackRecord => r.id) hr)
      have hadd : (db.addFeedback b).1 =
          { db with feedback := db.feedback ++ [{ feedbackWriteRow b with id := b.id }] } := by
        rw [DB.addFeedback, if_neg (by simp [hp])]
        simp only [if_neg hidb]
        rw [if_neg (by simp [hnob])]
      have hidrow : ({ feedbackWriteRow b with id := b.id } : FeedbackRecord) =
          feedbackWriteRow b := by
        rw [feedbackWriteRow]
      rw [List.foldl_cons, hadd, hidrow]
      rw [ih { db with feedback := db.feedback ++ [feedbackWriteRow b] } hp hnd.2
        (fun x hx => hid x (List.mem_cons_of_mem b hx)) ?fresh2]
      case fresh2 =>
        intro x hx
        rw [List.map_append]
        intro hmem
        rcases List.mem_append.1 hmem with hm | hm
        · exact hfresh x (List.mem_cons_of_mem b hx) hm
        · have hxb : x.id = b.id := by simpa [feedbackWriteRow] using hm
          exact hnd.1 (hxb ▸ List.mem_map_of_mem (fun q : FeedbackRecord => q.id) hx)
      rw [List.append_assoc]
      rfl

theorem foldl_createCheckpoint (C : List Checkpoint) (db : DB) :
    ∃ cps, C.foldl (fun d c => (d.createCheckpoint c).1) db =
      { db with checkpoints := cps } := by
  induction C generalizing db with
  | nil => exact ⟨db.checkpoints, by simp⟩
  | cons c rest ih =>
      rw [List.foldl_cons]
      have hone : ∃ cps1, (db.createCheckpoint c).1 = { db with checkpoints := cps1 } := by
        rw [DB.createCheckpoint]
        by_cases hp : db.plans.isEmpty = true
        · rw [if_pos hp]
          exact ⟨db.checkpoints, rfl⟩
        · rw [if_neg hp]
          by_cases hc : db.checkpoints.any (fun r => r.name == c.name) = true
          · rw [if_pos hc]
            exact ⟨_, rfl⟩
          · rw [if_neg hc]
            exact ⟨_, rfl⟩
      obtain ⟨cps1, h1⟩ := hone
      rw [h1]
      exact ih { db with checkpoints := cps1 }

theorem stepRowConv_fields (s : PlanStep) :
    (stepRowConv s).number = s.number ∧ (stepRowConv s).title = s.title ∧
    (stepRowConv s).status = s.status ∧ (stepRowConv s).content = s.content :=
  ⟨rfl, rfl, rfl, rfl⟩

theorem validateMetadata_eq_nil {m1 m2 : PlanMetadata}
    (hid : m1.id = m2.id) (hname : m1.name = m2.name)
    (hstage : m1.stage = m2.stage) :
    validateMetadata (.okSome m1) (.okSome m2) = [] := by
  have hdef : validateMetadata (.okSome m1) (.okSome m2) =
      (if m1.id = m2.id then [] else
        [{ etype := "metadata_difference", path := "metadata.id",
           message := "Plan ID mismatch: expected \"" ++ m1.id ++
             "\", got \"" ++ m2.id ++ "\"" }]) ++
      (if m1.name = m2.name then [] else
        [{ etype := "metadata_difference", path := "metadata.name",
           message := "Plan name mismatch: expected \"" ++ m1.name ++
             "\", got \"" ++ m2.name ++ "\"" }]) ++
      (if m1.stage = m2.stage then [] else
        [{ etype := "metadata_difference", path := "metadata.stage",
           message := "Plan stage mismatch: expected \"" ++ m1.stage ++
             "\", got \"" ++ m2.stage ++ "\"" }]) := rfl
  rw [hdef, if_pos hid, if_pos hname, if_pos hstage]
  rfl

theorem validateSteps_roundtrip (S T : List PlanStep)
    (hnd : (S.map (fun s => s.number)).Nodup)
    (hperm : T.Perm (S.map (fun s => stepRowConv (stepRowConv s)))) :
    validateSteps (.okSome S) (.okSome T) = ([], S.length) := by
  have hnumT : (T.map (fun u => u.number)).Nodup := by
    have hp := hperm.map (fun u : PlanStep => u.number)
    have heq : (S.map (fun s => stepRowConv (stepRowConv s))).map
        (fun u : PlanStep => u.number) = S.map (fun s => s.number) := by
      rw [List.map_map]
      rfl
    rw [heq] at hp
    exact hp.nodup_iff.2 hnd
  have hdef : validateSteps (.okSome S) (.okSome T) =
      (S.flatMap (fun st =>
          match T.find? (fun u => u.number == st.number) with
          | none => [missingStepError st]
          | some tu =>
              (if st.title = tu.title then [] else
                [{ etype := "content_mismatch",
                   path := "steps[" ++ toString st.number ++ "].title",
                   message := "Step " ++ toString st.number ++ " title mismatch" }]) ++
              (if st.status = tu.status then [] else
                [{ etype := "content_mismatch",
                   path := "steps[" ++ toString st.number ++ "].status",
                   message := "Step " ++ toString st.number ++ " status mismatch" }]) ++
              (if st.content.trim = tu.content.trim then [] else
                [{ etype := "content_mismatch",
                   path := "steps[" ++ toString st.number ++ "].content",
                   message := "Step " ++ toString st.number ++ " content mismatch" }])) ++
        T.flatMap (fun tu =>
          match S.find? (fun u => u.number == tu.number) with
          | none =>
              [{ etype := "content_mismatch",
                 path := "steps[" ++ toString tu.number ++ "]",
                 message := "Unexpected step " ++ toString tu.number ++ " in target" }]
          | some _ => []),
       S.length) := rfl
  rw [hdef]
  refine congrArg (fun l => (l, S.length)) (List.append_eq_nil.2
    ⟨flatMap_eq_nil_of_forall (fun st hst => ?_),
     flatMap_eq_nil_of_forall (fun tu htu => ?_)⟩)
  · have hmem : stepRowConv (stepRowConv st) ∈ T :=
      hperm.mem_iff.2 (List.mem_map_of_mem _ hst)
    have hfind : T.find? (fun u => u.number == st.number) =
        some (stepRowConv (stepRowConv st)) := by
      refine find?_eq_some_of_unique hmem (by simp [stepRowConv]) ?_
      intro b hb hpb
      rw [beq_iff_eq] at hpb
      refine map_key_unique hnumT hb hmem ?_
      rw [hpb]
      rfl
    rw [hfind]
    simp [stepRowConv]
  · rcases List.mem_map.1 (hperm.mem_iff.1 htu) with ⟨s0, hs0, hs0eq⟩
    have hsome : (S.find? (fun u => u.number == tu.number)).isSome = true := by
      refine find?_isSome_of_exists ⟨s0, hs0, ?_⟩
      rw [← hs0eq]
      simp [stepRowConv]
    cases hfind : S.find? (fun u => u.number == tu.number) with
    | none => rw [hfind] at hsome; simp at hsome
    | some u => rfl

theorem validateFiles_self (F : List PlanFile)
    (hnd : (F.map (fun f => (f.ftype, f.filename))).Nodup) :
    validateFiles (.okSome F) (.okSome F) = ([], F.length) := by
  have hdef : validateFiles (.okSome F) (.okSome F) =
      (F.flatMap (fun sf =>
          match F.find? (fun u => u.ftype == sf.ftype && u.filename == sf.filename) with
          | none => [missingFileError sf]
          | some tf =>
              if sf.content.trim = tf.content.trim then [] else
                [{ etype := "content_mismatch",
                   path := "files[" ++ sf.ftype ++ "/" ++ sf.filename ++ "].content",
                   message := "File " ++ sf.filename ++ " content mismatch" }]),
       F.length) := rfl
  rw [hdef]
  refine congrArg (fun l => (l, F.length))
    (flatMap_eq_nil_of_forall (fun sf hsf => ?_))
  have hfind : F.find? (fun u => u.ftype == sf.ftype && u.filename == sf.filename) =
      some sf := by
    refine find?_eq_some_of_unique hsf (by simp) ?_
    intro b hb hpb
    rw [Bool.and_eq_true, beq_iff_eq, beq_iff_eq] at hpb
    exact map_key_unique hnd hb hsf (by rw [hpb.1, hpb.2])
  rw [hfind]
  simp

theorem validateEvidence_matched (V TV : List EvidenceRecord)
    (h : ∀ v ∈ V, ∃ u ∈ TV, u.description = v.description) :
    validateEvidence (.okSome V) (.okSome TV) = ([], V.length) := by
  have hdef : validateEvidence (.okSome V) (.okSome TV) =
      (V.flatMap (fun se =>
          if (TV.find? (fun u => u.description == se.description)).isSome then []
          else [missingEvidenceError se]),
       V.length) := rfl
  rw [hdef]
  refine congrArg (fun l => (l, V.length))
    (flatMap_eq_nil_of_forall (fun se hse => ?_))
  obtain ⟨u, hu, hdesc⟩ := h se hse
  rw [if_pos (find?_isSome_of_exists ⟨u, hu, by simp [hdesc]⟩)]

theorem validateFeedback_matched (B TB : List FeedbackRecord)
    (h : ∀ b ∈ B, ∃ u ∈ TB, u.content = b.content) :
    validateFeedback (.okSome B) (.okSome TB) = ([], B.length) := by
  have hdef : validateFeedback (.okSome B) (.okSome TB) =
      (B.flatMap (fun sf =>
          if (TB.find? (fun u => u.content == sf.content)).isSome then []
          else [missingFeedbackError sf]),
       B.length) := rfl
  rw [hdef]
  refine congrArg (fun l => (l, B.length))
    (flatMap_eq_nil_of_forall (fun sf hsf => ?_))
  obtain ⟨u, hu, hcont⟩ := h sf hsf
  rw [if_pos (find?_isSome_of_exists ⟨u, hu, by simp [hcont]⟩)]

/-- C1: migrating a fully readable source plan with N steps, M files, K
timeline events, E evidence and F feedback records (well-formed: unique
step numbers, file keys and record ids, nonempty ids) into a fresh empty
target succeeds with exactly those per-collection counts, and validating
source against target afterwards yields valid with zero hard errors. -/
theorem migrate_round_trip
    (src : ProviderView) (md : PlanMetadata)
    (S : List PlanStep) (F : List PlanFile) (E : List TimelineEvent)
    (V : List EvidenceRecord) (B : List FeedbackRecord) (C : List Checkpoint)
    (hmd : src.metadata = .okSome md)
    (hS : src.steps = .okSome S)
    (hF : src.files = .okSome F)
    (hE : src.timeline = .okSome E)
    (hV : src.evidence = .okSome V)
    (hB : src.feedback = .okSome B)
    (hC : src.checkpoints = .okSome C)
    (hndS : (S.map (fun s => s.number)).Nodup)
    (hndF : (F.map (fun f => (f.ftype, f.filename))).Nodup)
    (hndE : (E.map (fun e => e.id)).Nodup) (hidE : ∀ e ∈ E, e.id ≠ "")
    (hndV : (V.map (fun v => v.id)).Nodup) (hidV : ∀ v ∈ V, v.id ≠ "")
    (hndB : (B.map (fun b => b.id)).Nodup) (hidB : ∀ b ∈ B, b.id ≠ "") :
    (migrate src DB.empty { force := false, validateAfter := true }).2.success = true ∧
    (migrate src DB.empty { force := false, validateAfter := true
      }).2.stats.stepsConverted = S.length ∧
    (migrate src DB.empty { force := false, validateAfter := true
      }).2.stats.filesConverted = F.length ∧
    (migrate src DB.empty { force := false, validateAfter := true
      }).2.stats.timelineEventsConverted = E.length ∧
    (migrate src DB.empty { force := false, validateAfter := true
      }).2.stats.evidenceConverted = V.length ∧
    (migrate src DB.empty { force := false, validateAfter := true
      }).2.stats.feedbackConverted = B.length ∧
    (validate src (migrate src DB.empty { force := false, validateAfter := true
      }).1.view).valid = true ∧
    (validate src (migrate src DB.empty { force := false, validateAfter := true
      }).1.view).errors = [] := by
  obtain ⟨cps, hcps⟩ := foldl_createCheckpoint C (migDb md S F E V B [])
  have h1 : migrateSteps src (migDb md [] [] [] [] [] []) =
      (migDb md S [] [] [] [] [], S.length) := by
    rw [migrateSteps, hS]
    show (S.foldl (fun d s => (d.addStep s).1) (migDb md [] [] [] [] [] []),
      S.length) = _
    rw [foldl_addStep S (migDb md [] [] [] [] [] []) rfl hndS (by intro s hs; simp [migDb])]
    rfl
  have h2 : migrateFiles src (migDb md S [] [] [] [] []) =
      (migDb md S F [] [] [] [], F.length) := by
    rw [migrateFiles, hF]
    show (F.foldl (fun d f => (d.saveFile f).1) (migDb md S [] [] [] [] []),
      F.length) = _
    rw [foldl_saveFile F (migDb md S [] [] [] [] []) rfl hndF (by intro f hf; simp [migDb])]
    rfl
  have h3 : migrateTimeline src (migDb md S F [] [] [] []) =
      (migDb md S F E [] [] [], E.length) := by
    rw [migrateTimeline, hE]
    show (E.foldl (fun d e => (d.addTimelineEvent e).1) (migDb md S F [] [] [] []),
      E.length) = _
    rw [foldl_addTimelineEvent E (migDb md S F [] [] [] []) rfl hndE hidE (by intro e he; simp [migDb])]
    rfl
  have h4 : migrateEvidence src (migDb md S F E [] [] []) =
      (migDb md S F E V [] [], V.length) := by
    rw [migrateEvidence, hV]
    show (V.foldl (fun d v => (d.addEvidence v).1) (migDb md S F E [] [] []),
      V.length) = _
    rw [foldl_addEvidence V (migDb md S F E [] [] []) rfl hndV hidV (by intro v hv; simp [migDb])]
    rfl
  have h5 : migrateFeedback src (migDb md S F E V [] []) =
      (migDb md S F E V B [], B.length) := by
    rw [migrateFeedback, hB]
    show (B.foldl (fun d b => (d.addFeedback b).1) (migDb md S F E V [] []),
      B.length) = _
    rw [foldl_addFeedback B (migDb md S F E V [] []) rfl hndB hidB (by intro b hb; simp [migDb])]
    rfl
  have h6 : migrateCheckpoints src (migDb md S F E V B []) =
      (migDb md S F E V B cps, C.length) := by
    rw [migrateCheckpoints, hC]
    show (C.foldl (fun d c => (d.createCheckpoint c).1) (migDb md S F E V B []),
      C.length) = _
    rw [hcps]
    rfl
  have hview_md : (migDb md S F E V B cps).view.metadata =
      .okSome { id := md.id, name := md.name,
                description := jsOrNone (jsOrNone md.description),
                createdAt := md.createdAt, updatedAt := md.updatedAt,
                stage := md.stage, schemaVersion := md.schemaVersion } := rfl
  have hview_st : (migDb md S F E V B cps).view.steps =
      .okSome ((sortBy (fun a b => a.number ≤ b.number)
        (S.map stepRowConv)).map stepRowConv) := rfl
  have hview_fi : (migDb md S F E V B cps).view.files = .okSome F := rfl
  have hview_evd : (migDb md S F E V B cps).view.evidence =
      .okSome ((V.map evidenceWriteRow).map evidenceReadRow) := rfl
  have hview_fb : (migDb md S F E V B cps).view.feedback =
      .okSome ((B.map feedbackWriteRow).map feedbackReadRow) := rfl
  have hvmd : validateMetadata (.okSome md) (migDb md S F E V B cps).view.metadata = [] := by
    rw [hview_md]
    exact validateMetadata_eq_nil rfl rfl rfl
  have hvst : validateSteps (.okSome S) (migDb md S F E V B cps).view.steps =
      ([], S.length) := by
    rw [hview_st]
    refine validateSteps_roundtrip S _ hndS ?_
    have hp := (sortBy_perm (fun a b : PlanStep => a.number ≤ b.number)
      (S.map stepRowConv)).map stepRowConv
    rw [List.map_map] at hp
    exact hp
  have hvfi : validateFiles (.okSome F) (migDb md S F E V B cps).view.files =
      ([], F.length) := by
    rw [hview_fi]
    exact validateFiles_self F hndF
  have hvev : validateEvidence (.okSome V) (migDb md S F E V B cps).view.evidence =
      ([], V.length) := by
    rw [hview_evd]
    refine validateEvidence_matched V _ (fun v hv => ?_)
    exact ⟨evidenceReadRow (evidenceWriteRow v),
      List.mem_map_of_mem _ (List.mem_map_of_mem _ hv), rfl⟩
  have hvfb : validateFeedback (.okSome B) (migDb md S F E V B cps).view.feedback =
      ([], B.length) := by
    rw [hview_fb]
    refine validateFeedback_matched B _ (fun b hb => ?_)
    exact ⟨feedbackReadRow (feedbackWriteRow b),
      List.mem_map_of_mem _ (List.mem_map_of_mem _ hb), rfl⟩
  obtain ⟨herr, hwarn, hvalid⟩ := validate_components src (migDb md S F E V B cps).view
  have herrs : (validate src (migDb md S F E V B cps).view).errors = [] := by
    rw [herr, hmd, hS, hF, hV, hB, hvmd, hvst, hvfi, hvev, hvfb]
    rfl
  have hvalidT : (validate src (migDb md S F E V B cps).view).valid = true := by
    rw [hvalid, herrs]
    rfl
  have hinit : DB.empty.initializeStore md = (migDb md [] [] [] [] [] [], okU) := by
    rw [DB.initializeStore, if_neg (by simp [DB.empty])]
    rfl
  have hcond : (DB.empty.existsPlan &&
      !({ force := false, validateAfter := true } : MigrationOptions).force) = false := rfl
  have hmig : migrate src DB.empty { force := false, validateAfter := true } =
      (migDb md S F E V B cps,
       { success := true, error := none,
         warnings := (validate src (migDb md S F E V B cps).view).warnings,
         stats := { stepsConverted := S.length, filesConverted := F.length,
                    timelineEventsConverted := E.length,
                    evidenceConverted := V.length, feedbackConverted := B.length,
                    checkpointsConverted := C.length } }) := by
    simp only [migrate, hcond, Bool.false_eq_true, Bool.true_eq_false, if_false,
      if_true, hmd, SResult.okSome, hinit, okU, h1, h2, h3, h4, h5, h6, hvalidT]
  refine ⟨?_, ?_, ?_, ?_, ?_, ?_, ?_, ?_⟩
  · rw [hmig]
  · rw [hmig]
  · rw [hmig]
  · rw [hmig]
  · rw [hmig]
  · rw [hmig]
  · rw [hmig]; exact hvalidT
  · rw [hmig]; exact herrs

/-- Witness for C1: a source holding one record of every kind migrated into
a fresh store. -/
theorem migrate_round_trip_witness :
    (migrate exSrcView DB.empty { force := false, validateAfter := true
      }).2.success = true ∧
    (migrate exSrcView DB.empty { force := false, validateAfter := true
      }).2.stats.stepsConverted = 1 ∧
    (migrate exSrcView DB.empty { force := false, validateAfter := true
      }).2.stats.filesConverted = 1 ∧
    (migrate exSrcView DB.empty { force := false, validateAfter := true
      }).2.stats.timelineEventsConverted = 1 ∧
    (migrate exSrcView DB.empty { force := false, validateAfter := true
      }).2.stats.evidenceConverted = 1 ∧
    (migrate exSrcView DB.empty { force := false, validateAfter := true
      }).2.stats.feedbackConverted = 1 ∧
    (validate exSrcView (migrate exSrcView DB.empty
      { force := false, validateAfter := true }).1.view).valid = true ∧
    (validate exSrcView (migrate exSrcView DB.empty
      { force := false, validateAfter := true }).1.view).errors = [] := by
  have h := migrate_round_trip exSrcView exMetaA [exStep1] [exFileOrig]
    [exEvent1] [exEvid1] [exFb1] [exCp] rfl rfl rfl rfl rfl rfl rfl
    (by decide) (by decide) (by decide) (by decide) (by decide) (by decide)
    (by decide) (by decide)
  exact h

/-- Witness for C7: a marker-only directory, a header-bearing file, a
`.plan` file with other content, and a missing path. -/
theorem detectPlanFormat_spec_witness :
    detectPlanFormat { entries := [] } "missing" = "unknown" ∧
    detectPlanFormat
      { entries := [("p", .dir), ("p/SUMMARY.md", .file [35])] } "p" = "directory" ∧
    detectPlanFormat
      { entries := [("db.plan", .file (SQLITE_HEADER ++ [42]))] } "db.plan" = "sqlite" ∧
    detectPlanFormat
      { entries := [("db.plan", .file [1, 2, 3])] } "db.plan" = "unknown" := by
  refine ⟨?_, ?_, ?_, ?_⟩
  · exact (detectPlanFormat_spec { entries := [] } "missing").1 (by decide)
  · exact ((detectPlanFormat_spec _ "p").2.1 (by decide)).1.2
      (Or.inl ⟨"SUMMARY.md", by decide, by decide⟩)
  · exact ((detectPlanFormat_spec _ "db.plan").2.2 (SQLITE_HEADER ++ [42])
      (by decide)).1.2 (by decide)
  · exact ((detectPlanFormat_spec _ "db.plan").2.2 [1, 2, 3]
      (by decide)).2 (by decide) (by decide)

end RiotPlan
